import Mathlib

/-!
# aprs_fanuc: the Fanuc hardware interface, `fanuc_hardware_interface.cpp`

A shallow embedding of `FanucHardwareInterface` (the destructor, `on_init`,
`on_configure`, `on_activate`, `on_deactivate`, `read`, `write`, the two
`export_*_interfaces` and `read_joints`) and of `socket_read::read_socket`,
followed by theorems about framing, byte order and the lifecycle callbacks.

Modelling conventions
* a `char` is a byte, `Byte = Fin 256`;
* a `float` / `double` is its IEEE-754 bit pattern (a natural number below
  `2^32` / `2^64`); equality of floats below is equality of bit patterns;
* the host is little-endian: `std::memcpy(&x, bytes, 4)` makes `bytes[0]` the
  least significant byte of `x`;
* the socket is a `Transport`: the bytes the peer has sent and not yet been
  consumed, plus a script saying how the next calls of `read(2)` behave
  (hard error, or a bound on the number of bytes delivered); a read completes
  in full when it returns the number of bytes asked for (`reads_in_full`);
* `new char[n]` yields a buffer of indeterminate content, supplied by an
  `uninit` argument;
* an out-of-range index into a buffer or a `std::vector` is undefined
  behaviour, modelled as `none`;
* the calls of `socket`, `inet_pton` and `connect` return what the environment
  chooses (`InitEnv`); a `SocketLog` records the descriptors created and the
  calls of `close`;
* the unused arguments `previous_state` of the lifecycle callbacks are left out;
* logging (`RCLCPP_*`, `std::cout`) has no effect on the modelled state.
-/

set_option autoImplicit false

namespace fanuc_hardware

/-- One `char` of a buffer. -/
abbrev Byte := Fin 256

/-- Behaviour of one call of `read(2)`, chosen by the environment. -/
inductive ReadEvent where
  /-- the call returns `-1`; nothing is delivered -/
  | error : ReadEvent
  /-- the call delivers at most `k` bytes -/
  | deliver (k : Nat) : ReadEvent
  deriving DecidableEq, Repr

/-- The connected stream socket seen from the reader. When `events` is
exhausted every call delivers all the bytes asked for, as far as `incoming`
reaches. -/
structure Transport where
  incoming : List Byte
  events : List ReadEvent
  deriving DecidableEq, Repr

/-- Overwrite the first bytes of `buf` with `bytes`, as the kernel does when it
copies into the user buffer. -/
def fill (bytes buf : List Byte) : List Byte :=
  bytes ++ buf.drop bytes.length

/-- The system call `read(fd, buf, nbytes)`: the return value, the buffer after
the call and the transport after the call. -/
def posix_read (t : Transport) (buf : List Byte) (nbytes : Nat) :
    Int × List Byte × Transport :=
  match t.events with
  | [] =>
    let m := min nbytes t.incoming.length
    ((m : Int), fill (t.incoming.take m) buf, ⟨t.incoming.drop m, []⟩)
  | ReadEvent.error :: es => (-1, buf, ⟨t.incoming, es⟩)
  | ReadEvent.deliver k :: es =>
    let m := min (min nbytes k) t.incoming.length
    ((m : Int), fill (t.incoming.take m) buf, ⟨t.incoming.drop m, es⟩)

/-- The return value of the next call of `read` asking for `nbytes` (it does not
depend on the buffer handed in). -/
def read_result (t : Transport) (nbytes : Nat) : Int :=
  (posix_read t [] nbytes).1

/-- The transport after the next call of `read` asking for `nbytes`. -/
def after_read (t : Transport) (nbytes : Nat) : Transport :=
  (posix_read t [] nbytes).2.2

/-- Every read completes in full: the next calls of `read`, asking for the byte
counts `ns` in turn, each return the count asked for. -/
def reads_in_full : List Nat → Transport → Bool
  | [], _ => true
  | n :: ns, t => decide (read_result t n = (n : Int)) && reads_in_full ns (after_read t n)

end fanuc_hardware

namespace socket_read

open fanuc_hardware in
/-- Source: `socket_read::read_socket`, lines 248-250. -/
def read_socket (t : Transport) (buf : List Byte) (nbytes : Nat) :
    Int × List Byte × Transport :=
  posix_read t buf nbytes

end socket_read

namespace fanuc_hardware

/-- A `float`, as its 32-bit pattern. -/
structure CFloat where
  bits : Nat
  deriving DecidableEq, Repr

/-- A `double`, as its 64-bit pattern. -/
structure CDouble where
  bits : Nat
  deriving DecidableEq, Repr

/-- The unsigned 32-bit word whose little-endian bytes are `b0 b1 b2 b3`. -/
def le_word (b0 b1 b2 b3 : Byte) : Nat :=
  b0.val + 2 ^ 8 * b1.val + 2 ^ 16 * b2.val + 2 ^ 24 * b3.val

/-- The copy `std::memcpy(&x, bytes, sizeof(int))` into an `int` on a little-endian
host with two's complement. -/
def memcpy_int (b0 b1 b2 b3 : Byte) : Int :=
  let w := le_word b0 b1 b2 b3
  if w < 2 ^ 31 then (w : Int) else (w : Int) - 2 ^ 32

/-- The copy `std::memcpy(&x, bytes, sizeof(float))` on a little-endian host. -/
def memcpy_float (b0 b1 b2 b3 : Byte) : CFloat :=
  ⟨le_word b0 b1 b2 b3⟩

/-- Allocation `new char[n]`: `n` bytes of indeterminate content. -/
def new_chars (uninit : Nat → Byte) (n : Nat) : List Byte :=
  (List.range n).map uninit

/-- The loop `for (i = lo; i < lo + k; i++) body`, where a `none` of the body
(undefined behaviour) ends the run. -/
def for_loop {σ : Type} (body : Nat → σ → Option σ) : Nat → Nat → σ → Option σ
  | 0, _, s => some s
  | k + 1, i, s => (body i s).bind (for_loop body k (i + 1))

/-- Shift a non-zero subnormal mantissa left until bit 23 is set; returns the
shifted mantissa and the number of shifts. -/
def normalise : Nat → Nat → Nat → Nat × Nat
  | 0, m, s => (m, s)
  | fuel + 1, m, s => if 2 ^ 23 ≤ m then (m, s) else normalise fuel (2 * m) (s + 1)

/-- The implicit conversion `float → double` (exact; a NaN keeps its sign and
payload and is made quiet, as `cvtss2sd` does). -/
def float_to_double (f : CFloat) : CDouble :=
  let sign := f.bits / 2 ^ 31 % 2
  let e := f.bits / 2 ^ 23 % 256
  let m := f.bits % 2 ^ 23
  if e = 255 then
    if m = 0 then ⟨sign * 2 ^ 63 + 2047 * 2 ^ 52⟩
    else ⟨sign * 2 ^ 63 + 2047 * 2 ^ 52 + (if m < 2 ^ 22 then 2 ^ 51 else 0) + m * 2 ^ 29⟩
  else if e = 0 then
    if m = 0 then ⟨sign * 2 ^ 63⟩
    else
      let (m', s) := normalise 23 m 0
      ⟨sign * 2 ^ 63 + (897 - s) * 2 ^ 52 + (m' - 2 ^ 23) * 2 ^ 29⟩
  else ⟨sign * 2 ^ 63 + (e + 896) * 2 ^ 52 + m * 2 ^ 29⟩

/-- The `double` obtained from the integer literal `0`. -/
def double_zero : CDouble := ⟨0⟩

/-- The value `std::numeric_limits<double>::quiet_NaN()`. -/
def quiet_NaN : CDouble := ⟨0x7FF8000000000000⟩

/-- The `float` obtained from the integer literal `0`. -/
def float_zero : CFloat := ⟨0⟩

/-- Assignment `v[i] = x` on a `std::vector`; out of range is undefined behaviour. -/
def vec_set {α : Type} (v : List α) (i : Nat) (x : α) : Option (List α) :=
  if i < v.length then some (v.set i x) else none

inductive CallbackReturn where
  | SUCCESS | FAILURE | ERROR
  deriving DecidableEq, Repr

inductive return_type where
  | OK | ERROR
  deriving DecidableEq, Repr

/-- The data members of `FanucHardwareInterface` used by the callbacks. -/
structure FanucHardwareInterface where
  sock_ : Int
  socket_created_ : Bool
  hw_states_ : List CDouble
  hw_commands_ : List CDouble
  deriving DecidableEq, Repr

namespace FanucHardwareInterface

/-- Lines 187-189: `length_bytes = {buf[3], buf[2], buf[1], buf[0]}` copied into
the `int packet_length`. -/
def decode_length (length_buffer : List Byte) : Option Int := do
  let l0 ← length_buffer[3]?
  let l1 ← length_buffer[2]?
  let l2 ← length_buffer[1]?
  let l3 ← length_buffer[0]?
  pure (memcpy_int l0 l1 l2 l3)

/-- Lines 234-236: `joint_bytes = {buf[start+3], buf[start+2], buf[start+1],
buf[start]}` copied into the `float joint_value`. -/
def decode_joint (state_buffer : List Byte) (start : Nat) : Option CFloat := do
  let j0 ← state_buffer[start + 3]?
  let j1 ← state_buffer[start + 2]?
  let j2 ← state_buffer[start + 1]?
  let j3 ← state_buffer[start]?
  pure (memcpy_float j0 j1 j2 j3)

/-- One iteration of the joint loop of `read_joints`, lines 232-237. -/
def read_joints_body (state_buffer : List Byte) (i : Nat) (joint_positions : List CFloat) :
    Option (List CFloat) := do
  let start := 20 + 4 * i
  let joint_value ← decode_joint state_buffer start
  pure (joint_positions ++ [joint_value])

/-- Source: `FanucHardwareInterface::read_joints`, lines 168-245.
`state_buffer_length_` is a constant of the class declaration (the header is
not part of the sources), taken as a parameter. `uninit 0` is the content of
the fresh `length_buffer`, `uninit 1` that of the second buffer allocated. -/
def read_joints (state_buffer_length_ : Nat) (uninit : Nat → Nat → Byte) (t : Transport) :
    Option ((Bool × List CFloat) × Transport) := do
  let joint_positions : List CFloat := []
  let length_buffer := new_chars (uninit 0) 4
  let (packet, length_buffer, t) := socket_read.read_socket t length_buffer 4
  let packet_length ← decode_length length_buffer
  if packet_length ≠ 56 ∨ packet = -1 then
    let status_buffer := new_chars (uninit 1) 40
    let (_, _, t) := socket_read.read_socket t status_buffer 40
    let joint_positions := List.replicate 6 float_zero
    pure ((true, joint_positions), t)
  else
    let state_buffer := new_chars (uninit 1) state_buffer_length_
    let (_, state_buffer, t) := socket_read.read_socket t state_buffer state_buffer_length_
    let joint_positions ← for_loop (read_joints_body state_buffer) 6 0 joint_positions
    pure ((true, joint_positions), t)

/-- Body of the loop of `on_configure`, lines 73-74. -/
def on_configure_body (current_positions : List CFloat) (i : Nat)
    (self : FanucHardwareInterface) : Option FanucHardwareInterface := do
  let x ← current_positions[i]?
  let hw_states_ ← vec_set self.hw_states_ i (float_to_double x)
  let hw_commands_ ← vec_set self.hw_commands_ i double_zero
  pure ⟨self.sock_, self.socket_created_, hw_states_, hw_commands_⟩

/-- Source: `FanucHardwareInterface::on_configure`, lines 59-80. The loop bound
`hw_states_.size()` does not change during the loop. -/
def on_configure (state_buffer_length_ : Nat) (uninit : Nat → Nat → Byte)
    (self : FanucHardwareInterface) (t : Transport) :
    Option (CallbackReturn × FanucHardwareInterface × Transport) := do
  let (ret, t) ← read_joints state_buffer_length_ uninit t
  if !ret.1 then
    pure (CallbackReturn.SUCCESS, self, t)
  else
    let current_positions := ret.2
    let self ← for_loop (on_configure_body current_positions) self.hw_states_.length 0 self
    pure (CallbackReturn.SUCCESS, self, t)

/-- Body of the loop of `read`, line 120. -/
def read_body (current_positions : List CFloat) (i : Nat)
    (self : FanucHardwareInterface) : Option FanucHardwareInterface := do
  let x ← current_positions[i]?
  let hw_states_ ← vec_set self.hw_states_ i (float_to_double x)
  pure ⟨self.sock_, self.socket_created_, hw_states_, self.hw_commands_⟩

/-- Source: `FanucHardwareInterface::read`, lines 105-126. -/
def read (state_buffer_length_ : Nat) (uninit : Nat → Nat → Byte)
    (self : FanucHardwareInterface) (t : Transport) :
    Option (return_type × FanucHardwareInterface × Transport) := do
  let (ret, t) ← read_joints state_buffer_length_ uninit t
  if !ret.1 then
    pure (return_type.ERROR, self, t)
  else
    let current_positions := ret.2
    let self ← for_loop (read_body current_positions) self.hw_states_.length 0 self
    pure (return_type.OK, self, t)

end FanucHardwareInterface

end fanuc_hardware

namespace fanuc_hardware

/-! ## The frame layout, in the words of the specification -/

/-- The 32-bit word whose big-endian (wire order) bytes are `b0 b1 b2 b3`. -/
def be_word (b0 b1 b2 b3 : Byte) : Nat :=
  2 ^ 24 * b0.val + 2 ^ 16 * b1.val + 2 ^ 8 * b2.val + b3.val

/-- The 4-byte big-endian encoding of the 32-bit value `V`. -/
def encode_be (V : Nat) : List Byte :=
  [⟨V / 2 ^ 24 % 256, Nat.mod_lt _ (by decide)⟩, ⟨V / 2 ^ 16 % 256, Nat.mod_lt _ (by decide)⟩,
   ⟨V / 2 ^ 8 % 256, Nat.mod_lt _ (by decide)⟩, ⟨V % 256, Nat.mod_lt _ (by decide)⟩]

/-- The two's complement reading of a 32-bit word. -/
def to_int32 (w : Nat) : Int :=
  if w < 2 ^ 31 then (w : Int) else (w : Int) - 2 ^ 32

/-- Joint `i` of a status payload: the big-endian float at offset `20 + 4 * i`. -/
def frame_joint (payload : List Byte) (i : Nat) : CFloat :=
  ⟨be_word (payload.getD (20 + 4 * i) 0) (payload.getD (20 + 4 * i + 1) 0)
    (payload.getD (20 + 4 * i + 2) 0) (payload.getD (20 + 4 * i + 3) 0)⟩

/-- The six joints of a status payload, in joint order. -/
def frame_joints (payload : List Byte) : List CFloat :=
  (List.range 6).map (frame_joint payload)

/-- The fallback vector of six zeros. -/
def fallback_joints : List CFloat := List.replicate 6 float_zero

/-! ## Concrete frames and states used as test inputs -/

/-- A 56-byte status payload whose joint 1 is `90.5f` (bytes `42 B5 00 00` at
offset 20) and whose other bytes are zero. -/
def example_payload : List Byte :=
  List.replicate 20 0 ++ [0x42, 0xB5, 0, 0] ++ List.replicate 32 0

/-- A status payload of 56 zero bytes: six joints equal to `+0.0f`. -/
def zero_payload : List Byte := List.replicate 56 0

/-- An error frame: declared length 40, then 40 payload bytes. -/
def example_error_frame : List Byte := [0, 0, 0, 40] ++ List.replicate 40 0xEE

/-- Fresh buffers filled with the byte `AA`. -/
def example_uninit : Nat → Nat → Byte := fun _ _ => 0xAA

/-- The instance right after a successful `on_init` with six joints. -/
def example_state : FanucHardwareInterface :=
  ⟨3, true, List.replicate 6 quiet_NaN, List.replicate 6 quiet_NaN⟩

end fanuc_hardware

namespace fanuc_hardware

/-! ## Initialisation, activation and the remaining callbacks -/

/-- The part of `hardware_interface::HardwareInfo` that the plugin looks at: the
joints, by name. -/
structure HardwareInfo where
  joints : List String
  deriving DecidableEq, Repr

/-- What the process has done with socket descriptors: the descriptors returned
by the successful calls of `socket`, and the arguments of the calls of
`close`, latest first. -/
structure SocketLog where
  created : List Int
  closed : List Int
  deriving DecidableEq, Repr

/-- Outcomes, chosen by the environment, of the calls made by `on_init`: the
result of the base class `SystemInterface::on_init(info)` and the return values
of `socket`, `inet_pton` and `connect`. -/
structure InitEnv where
  base_on_init : CallbackReturn
  socket_ret : Int
  inet_pton_ret : Int
  connect_ret : Int
  deriving DecidableEq, Repr

/-- The call `socket(AF_INET, SOCK_STREAM, 0)`: a negative return value is a
failure, any other one is a new descriptor. -/
def sys_socket (env : InitEnv) (log : SocketLog) : Int × SocketLog :=
  if env.socket_ret < 0 then (env.socket_ret, log)
  else (env.socket_ret, ⟨env.socket_ret :: log.created, log.closed⟩)

/-- The call `close(fd)`. -/
def sys_close (fd : Int) (log : SocketLog) : SocketLog :=
  ⟨log.created, fd :: log.closed⟩

/-- The conversion `int(v.size())` of a `size_t` to a 32-bit `int`. -/
def size_to_int (n : Nat) : Int :=
  let w : Nat := n % 2 ^ 32
  if w < 2 ^ 31 then (w : Int) else (w : Int) - 2 ^ 32

/-- The call `v.resize(n, x)` on a `std::vector`. -/
def vec_resize {α : Type} (v : List α) (n : Nat) (x : α) : List α :=
  v.take n ++ List.replicate (n - v.length) x

namespace FanucHardwareInterface

/-- Source: `FanucHardwareInterface::~FanucHardwareInterface`, lines 8-13. -/
def destructor (self : FanucHardwareInterface) (log : SocketLog) : SocketLog :=
  if self.socket_created_ then sys_close self.sock_ log else log

/-- Source: `FanucHardwareInterface::on_init`, lines 15-57. `number_of_joints_`
is a constant of the class declaration (the header is not part of the
sources), taken as a parameter. The base class call stores `info` in `info_`.
The fields of `state_socket_` are not modelled. -/
def on_init (number_of_joints_ : Int) (env : InitEnv) (self : FanucHardwareInterface)
    (log : SocketLog) (info : HardwareInfo) :
    CallbackReturn × FanucHardwareInterface × SocketLog :=
  if env.base_on_init ≠ CallbackReturn.SUCCESS then
    (CallbackReturn.ERROR, self, log)
  else
    let info_ := info
    if size_to_int info_.joints.length ≠ number_of_joints_ then
      (CallbackReturn.ERROR, self, log)
    else
      let (sock_, log) := sys_socket env log
      let self : FanucHardwareInterface :=
        ⟨sock_, self.socket_created_, self.hw_states_, self.hw_commands_⟩
      if sock_ < 0 then
        (CallbackReturn.FAILURE, self, log)
      else if env.inet_pton_ret ≤ 0 then
        (CallbackReturn.FAILURE, self, log)
      else if env.connect_ret < 0 then
        (CallbackReturn.FAILURE, self, log)
      else
        let socket_created_ := true
        let hw_states_ := vec_resize self.hw_states_ info_.joints.length quiet_NaN
        let hw_commands_ := vec_resize self.hw_commands_ info_.joints.length quiet_NaN
        (CallbackReturn.SUCCESS, ⟨self.sock_, socket_created_, hw_states_, hw_commands_⟩, log)

/-- Body of the loop of `on_activate`, line 88. -/
def on_activate_body (i : Nat) (self : FanucHardwareInterface) :
    Option FanucHardwareInterface := do
  let x ← self.hw_states_[i]?
  let hw_commands_ ← vec_set self.hw_commands_ i x
  pure ⟨self.sock_, self.socket_created_, self.hw_states_, hw_commands_⟩

/-- Source: `FanucHardwareInterface::on_activate`, lines 82-94. -/
def on_activate (self : FanucHardwareInterface) :
    Option (CallbackReturn × FanucHardwareInterface) := do
  let self ← for_loop on_activate_body self.hw_states_.length 0 self
  pure (CallbackReturn.SUCCESS, self)

/-- Source: `FanucHardwareInterface::on_deactivate`, lines 96-103. -/
def on_deactivate (self : FanucHardwareInterface) :
    CallbackReturn × FanucHardwareInterface :=
  (CallbackReturn.SUCCESS, self)

/-- Source: `FanucHardwareInterface::write`, lines 128-136. -/
def write (_time _period : Int) (self : FanucHardwareInterface) (t : Transport) :
    return_type × FanucHardwareInterface × Transport :=
  (return_type.OK, self, t)

/-- Body of the loop of `export_state_interfaces`, lines 144-145: the interface
of joint `i` is its name, the interface type and a pointer to `hw_states_[i]`,
kept as the index `i`. -/
def export_state_body (info_ : HardwareInfo) (self : FanucHardwareInterface) (i : Nat)
    (state_interfaces : List (String × String × Nat)) :
    Option (List (String × String × Nat)) := do
  let joint ← info_.joints[i]?
  let _ ← self.hw_states_[i]?
  pure (state_interfaces ++ [(joint, "position", i)])

/-- Source: `FanucHardwareInterface::export_state_interfaces`, lines 138-149. -/
def export_state_interfaces (info_ : HardwareInfo) (self : FanucHardwareInterface) :
    Option (List (String × String × Nat)) :=
  for_loop (export_state_body info_ self) info_.joints.length 0 []

/-- Body of the loop of `export_command_interfaces`, lines 157-158. -/
def export_command_body (info_ : HardwareInfo) (self : FanucHardwareInterface) (i : Nat)
    (command_interfaces : List (String × String × Nat)) :
    Option (List (String × String × Nat)) := do
  let joint ← info_.joints[i]?
  let _ ← self.hw_commands_[i]?
  pure (command_interfaces ++ [(joint, "position", i)])

/-- Source: `FanucHardwareInterface::export_command_interfaces`, lines 151-162. -/
def export_command_interfaces (info_ : HardwareInfo) (self : FanucHardwareInterface) :
    Option (List (String × String × Nat)) :=
  for_loop (export_command_body info_ self) info_.joints.length 0 []

/-- The payload indices read by iteration `i` of the joint loop of
`read_joints`, line 234, in the order of the accesses. -/
def joint_window (i : Nat) : List Nat :=
  let start := 20 + 4 * i
  [start + 3, start + 2, start + 1, start]

end FanucHardwareInterface

/-! ## Sequences of polls and of lifecycle calls -/

/-- A frame on the wire: an error frame (four length bytes and a payload) or a
status frame (length 56 and a payload). -/
inductive Frame where
  | error (b0 b1 b2 b3 : Byte) (body : List Byte) : Frame
  | status (payload : List Byte) : Frame
  deriving DecidableEq, Repr

namespace Frame

/-- Well-formed frames: an error frame declares a length other than 56 and
carries 40 payload bytes; a status frame carries `state_buffer_length_` bytes. -/
def well_formed (state_buffer_length_ : Nat) : Frame → Bool
  | error b0 b1 b2 b3 body => decide (be_word b0 b1 b2 b3 ≠ 56) && decide (body.length = 40)
  | status payload => decide (payload.length = state_buffer_length_)

/-- The bytes of a frame on the wire. -/
def bytes : Frame → List Byte
  | error b0 b1 b2 b3 body => [b0, b1, b2, b3] ++ body
  | status payload => [0, 0, 0, 56] ++ payload

/-- The byte counts of the two reads that consume a frame. -/
def requests (state_buffer_length_ : Nat) : Frame → List Nat
  | error _ _ _ _ _ => [4, 40]
  | status _ => [4, state_buffer_length_]

/-- The vector a poll is to return for a frame: six zeros for an error frame,
the encoded joints for a status frame. -/
def reading : Frame → List CFloat
  | error _ _ _ _ _ => List.replicate 6 float_zero
  | status payload => frame_joints payload

end Frame

/-- The results of `n` consecutive calls of `read_joints`, call `k` allocating
its buffers with content `uninit k`. -/
def polls (state_buffer_length_ : Nat) (uninit : Nat → Nat → Nat → Byte) :
    Nat → Nat → Transport → Option (List (Bool × List CFloat) × Transport)
  | 0, _, t => some ([], t)
  | n + 1, k, t => do
    let (r, t) ← FanucHardwareInterface.read_joints state_buffer_length_ (uninit k) t
    let (rs, t) ← polls state_buffer_length_ uninit n (k + 1) t
    pure (r :: rs, t)

/-- A call made by the host runtime after `on_init`. -/
inductive Call where
  | on_configure (uninit : Nat → Nat → Byte) : Call
  | on_activate : Call
  | on_deactivate : Call
  | read (uninit : Nat → Nat → Byte) : Call
  | write (time period : Int) : Call

/-- The effect of one call on the instance and the transport. -/
def Call.apply (state_buffer_length_ : Nat) :
    Call → FanucHardwareInterface → Transport → Option (FanucHardwareInterface × Transport)
  | Call.on_configure uninit, self, t =>
    (FanucHardwareInterface.on_configure state_buffer_length_ uninit self t).map
      (fun r => (r.2.1, r.2.2))
  | Call.on_activate, self, t => (FanucHardwareInterface.on_activate self).map (fun r => (r.2, t))
  | Call.on_deactivate, self, t => some ((FanucHardwareInterface.on_deactivate self).2, t)
  | Call.read uninit, self, t =>
    (FanucHardwareInterface.read state_buffer_length_ uninit self t).map
      (fun r => (r.2.1, r.2.2))
  | Call.write time period, self, t =>
    some ((FanucHardwareInterface.write time period self t).2.1,
      (FanucHardwareInterface.write time period self t).2.2)

/-- The calls of a list made one after the other. -/
def run_calls (state_buffer_length_ : Nat) :
    List Call → FanucHardwareInterface → Transport → Option (FanucHardwareInterface × Transport)
  | [], self, t => some (self, t)
  | c :: cs, self, t =>
    (c.apply state_buffer_length_ self t).bind
      (fun r => run_calls state_buffer_length_ cs r.1 r.2)

/-- Three frames: an error frame, the example status frame and an error frame
whose declared length is negative. -/
def example_frames : List Frame :=
  [Frame.error 0 0 0 40 (List.replicate 40 0xEE), Frame.status example_payload,
    Frame.error 0xFF 0xFF 0xFF 0xC8 (List.replicate 40 1)]

/-- An instance before `on_init`: no socket, empty buffers. -/
def fresh_instance : FanucHardwareInterface := ⟨0, false, [], []⟩

/-- A hardware description with six joints. -/
def example_info : HardwareInfo := ⟨["joint_1", "joint_2", "joint_3", "joint_4", "joint_5", "joint_6"]⟩

/-- An environment in which every call of `on_init` succeeds; the socket is
descriptor 3. -/
def example_env : InitEnv := ⟨CallbackReturn.SUCCESS, 3, 1, 0⟩

/-- An environment in which the socket is created (descriptor 3) and the
connection is refused. -/
def refused_env : InitEnv := ⟨CallbackReturn.SUCCESS, 3, 1, -1⟩

end fanuc_hardware

/-! # Theorems -/

namespace fanuc_hardware

open FanucHardwareInterface

/-! ## Transport lemmas -/

theorem new_chars_length (uninit : Nat → Byte) (n : Nat) : (new_chars uninit n).length = n := by
  simp [new_chars]

theorem fill_full (bytes buf : List Byte) (h : buf.length ≤ bytes.length) :
    fill bytes buf = bytes := by
  simp [fill, List.drop_eq_nil_of_le h]

theorem fill_length (bytes buf : List Byte) (h : bytes.length ≤ buf.length) :
    (fill bytes buf).length = buf.length := by
  simp [fill]; omega

/-- The return value of `read_socket` does not depend on the buffer. -/
theorem read_socket_fst (t : Transport) (buf : List Byte) (n : Nat) :
    (socket_read.read_socket t buf n).1 = read_result t n := by
  rcases t with ⟨inc, ev⟩
  rcases ev with _ | ⟨e, es⟩
  · rfl
  · cases e <;> rfl

/-- The transport left by `read_socket` does not depend on the buffer. -/
theorem read_socket_transport (t : Transport) (buf : List Byte) (n : Nat) :
    (socket_read.read_socket t buf n).2.2 = after_read t n := by
  rcases t with ⟨inc, ev⟩
  rcases ev with _ | ⟨e, es⟩
  · rfl
  · cases e <;> rfl

/-- A read of `n` bytes that completes in full fills the whole buffer with the
next `n` bytes of the stream and consumes exactly those. -/
theorem read_socket_in_full (t : Transport) (buf xs rest : List Byte) (n : Nat)
    (hi : t.incoming = xs ++ rest) (hx : xs.length = n) (hb : buf.length = n)
    (hf : read_result t n = (n : Int)) :
    socket_read.read_socket t buf n = ((n : Int), xs, after_read t n)
      ∧ (after_read t n).incoming = rest := by
  rcases t with ⟨inc, ev⟩
  simp only at hi
  subst hi hx
  have hm : min xs.length (xs.length + rest.length) = xs.length := by omega
  rcases ev with _ | ⟨e, es⟩
  · simp [socket_read.read_socket, posix_read, after_read, hm, fill_full _ _ (le_of_eq hb)]
  · cases e with
    | error =>
      simp only [read_result, posix_read] at hf
      omega
    | deliver k =>
      simp only [read_result, posix_read, List.length_append] at hf
      have hk : xs.length ≤ k := by omega
      simp [socket_read.read_socket, posix_read, after_read, hk, Nat.min_eq_left hk,
        fill_full _ _ (le_of_eq hb)]

theorem read_socket_buf_length (t : Transport) (buf : List Byte) (n : Nat) (h : n ≤ buf.length) :
    (socket_read.read_socket t buf n).2.1.length = buf.length := by
  rcases t with ⟨inc, ev⟩
  rcases ev with _ | ⟨e, es⟩
  · simp only [socket_read.read_socket, posix_read]
    apply fill_length
    simp only [List.length_take]; omega
  · cases e with
    | error => simp [socket_read.read_socket, posix_read]
    | deliver k =>
      simp only [socket_read.read_socket, posix_read]
      apply fill_length
      simp only [List.length_take]; omega

/-- A read never consumes more than it was asked for. -/
theorem after_read_consumed (t : Transport) (n : Nat) :
    t.incoming.length - (after_read t n).incoming.length ≤ n := by
  rcases t with ⟨inc, ev⟩
  rcases ev with _ | ⟨e, es⟩
  · simp only [after_read, posix_read, List.length_drop]; omega
  · cases e with
    | error => simp [after_read, posix_read]
    | deliver k => simp only [after_read, posix_read, List.length_drop]; omega

theorem reads_in_full_cons (n : Nat) (ns : List Nat) (t : Transport) :
    reads_in_full (n :: ns) t = true
      ↔ read_result t n = (n : Int) ∧ reads_in_full ns (after_read t n) = true := by
  simp [reads_in_full]

/-! ## Decoding one frame -/

theorem getElem?_eq_some_getD (l : List Byte) (k : Nat) (h : k < l.length) :
    l[k]? = some (l.getD k 0) := by
  simp [List.getD, List.getElem?_eq_getElem h]

theorem decode_joint_eq (sb : List Byte) (i : Nat) (h : 20 + 4 * i + 3 < sb.length) :
    decode_joint sb (20 + 4 * i) = some (frame_joint sb i) := by
  have h0 := getElem?_eq_some_getD sb (20 + 4 * i) (by omega)
  have h1 := getElem?_eq_some_getD sb (20 + 4 * i + 1) (by omega)
  have h2 := getElem?_eq_some_getD sb (20 + 4 * i + 2) (by omega)
  have h3 := getElem?_eq_some_getD sb (20 + 4 * i + 3) (by omega)
  simp only [decode_joint, h0, h1, h2, h3, Option.bind_eq_bind, Option.some_bind, Option.pure_def,
    frame_joint, memcpy_float, le_word, be_word]
  congr 2
  omega

theorem read_joints_loop (sb : List Byte) (h : 44 ≤ sb.length) :
    for_loop (read_joints_body sb) 6 0 [] = some (frame_joints sb) := by
  have e0 := decode_joint_eq sb 0 (by omega)
  have e1 := decode_joint_eq sb 1 (by omega)
  have e2 := decode_joint_eq sb 2 (by omega)
  have e3 := decode_joint_eq sb 3 (by omega)
  have e4 := decode_joint_eq sb 4 (by omega)
  have e5 := decode_joint_eq sb 5 (by omega)
  simp only [Nat.mul_zero, Nat.mul_one, Nat.add_zero, Nat.reduceMul, Nat.reduceAdd] at e0 e1 e2 e3 e4 e5
  simp [for_loop, read_joints_body, e0, e1, e2, e3, e4, e5, frame_joints, List.range, List.range.loop]

theorem decode_length_four (b0 b1 b2 b3 : Byte) :
    decode_length [b0, b1, b2, b3] = some (memcpy_int b3 b2 b1 b0) := by
  simp [decode_length]

theorem memcpy_int_eq_56_iff (b0 b1 b2 b3 : Byte) :
    memcpy_int b3 b2 b1 b0 = 56 ↔ be_word b0 b1 b2 b3 = 56 := by
  simp only [memcpy_int, le_word, be_word]
  split <;> omega

theorem frame_joints_length (payload : List Byte) : (frame_joints payload).length = 6 := by
  simp [frame_joints]

theorem fallback_joints_length : fallback_joints.length = 6 := by
  simp [fallback_joints]

/-! ## One poll on a well-formed frame -/

/-- A poll on a status frame whose two reads complete in full. -/
theorem read_joints_status_frame (L : Nat) (uninit : Nat → Nat → Byte) (t : Transport)
    (payload rest : List Byte) (hL : 44 ≤ L) (hp : payload.length = L)
    (ht : t.incoming = [0, 0, 0, 56] ++ payload ++ rest)
    (hf : reads_in_full [4, L] t = true) :
    read_joints L uninit t
        = some ((true, frame_joints payload), after_read (after_read t 4) L)
      ∧ (after_read (after_read t 4) L).incoming = rest := by
  rw [reads_in_full_cons, reads_in_full_cons] at hf
  obtain ⟨hf1, hf2, -⟩ := hf
  obtain ⟨h1, i1⟩ := read_socket_in_full t (new_chars (uninit 0) 4) [0, 0, 0, 56] (payload ++ rest) 4
    (by rw [ht, List.append_assoc]) rfl (new_chars_length _ _) hf1
  obtain ⟨h2, i2⟩ := read_socket_in_full (after_read t 4) (new_chars (uninit 1) L) payload rest L
    i1 hp (new_chars_length _ _) hf2
  have h3 := read_joints_loop payload (by omega)
  have h4 : memcpy_int (56 : Byte) 0 0 0 = 56 := by decide
  refine ⟨?_, i2⟩
  simp [read_joints, h1, h2, h3, decode_length_four, h4]

/-- A poll on an error frame whose two reads complete in full. -/
theorem read_joints_error_frame (L : Nat) (uninit : Nat → Nat → Byte) (t : Transport)
    (b0 b1 b2 b3 : Byte) (body rest : List Byte)
    (hne : be_word b0 b1 b2 b3 ≠ 56) (hb : body.length = 40)
    (ht : t.incoming = [b0, b1, b2, b3] ++ body ++ rest)
    (hf : reads_in_full [4, 40] t = true) :
    read_joints L uninit t
        = some ((true, fallback_joints), after_read (after_read t 4) 40)
      ∧ (after_read (after_read t 4) 40).incoming = rest := by
  rw [reads_in_full_cons, reads_in_full_cons] at hf
  obtain ⟨hf1, hf2, -⟩ := hf
  obtain ⟨h1, i1⟩ := read_socket_in_full t (new_chars (uninit 0) 4) [b0, b1, b2, b3] (body ++ rest) 4
    (by rw [ht, List.append_assoc]) rfl (new_chars_length _ _) hf1
  obtain ⟨h2, i2⟩ := read_socket_in_full (after_read t 4) (new_chars (uninit 1) 40) body rest 40
    i1 hb (new_chars_length _ _) hf2
  have h4 : memcpy_int b3 b2 b1 b0 ≠ 56 := fun h => hne ((memcpy_int_eq_56_iff _ _ _ _).1 h)
  refine ⟨?_, i2⟩
  simp [read_joints, h1, h2, decode_length_four, h4, fallback_joints]

/-- A poll whose length read fails hard takes the error path whatever the
fresh length buffer holds, and drains up to 40 bytes. -/
theorem read_joints_length_read_error (L : Nat) (uninit : Nat → Nat → Byte)
    (incoming : List Byte) (es : List ReadEvent) :
    read_joints L uninit ⟨incoming, ReadEvent.error :: es⟩
      = some ((true, fallback_joints), after_read ⟨incoming, es⟩ 40) := by
  obtain ⟨v, hv⟩ : ∃ v, decode_length (new_chars (uninit 0) 4) = some v :=
    ⟨_, decode_length_four _ _ _ _⟩
  have h1 : socket_read.read_socket ⟨incoming, ReadEvent.error :: es⟩ (new_chars (uninit 0) 4) 4
      = (-1, new_chars (uninit 0) 4, ⟨incoming, es⟩) := rfl
  simp [read_joints, h1, hv, fallback_joints, read_socket_transport]

theorem decode_length_some (buf : List Byte) (h : buf.length = 4) :
    ∃ v, decode_length buf = some v := by
  match buf, h with
  | [b0, b1, b2, b3], _ => exact ⟨_, decode_length_four b0 b1 b2 b3⟩

/-- A poll returns on every transport, with success and six values. -/
theorem read_joints_total (L : Nat) (uninit : Nat → Nat → Byte) (t : Transport) (hL : 44 ≤ L) :
    ∃ joints t', read_joints L uninit t = some ((true, joints), t') ∧ joints.length = 6 := by
  obtain ⟨v, hv⟩ := decode_length_some
    (socket_read.read_socket t (new_chars (uninit 0) 4) 4).2.1
    (by rw [read_socket_buf_length _ _ _ (by simp [new_chars_length])]; exact new_chars_length _ _)
  have hsb : 44 ≤ (socket_read.read_socket (socket_read.read_socket t (new_chars (uninit 0) 4) 4).2.2
      (new_chars (uninit 1) L) L).2.1.length := by
    rw [read_socket_buf_length _ _ _ (by simp [new_chars_length]), new_chars_length]; exact hL
  have hloop := read_joints_loop _ hsb
  by_cases hc : v ≠ 56 ∨ (socket_read.read_socket t (new_chars (uninit 0) 4) 4).1 = -1
  · refine ⟨fallback_joints, (socket_read.read_socket
      (socket_read.read_socket t (new_chars (uninit 0) 4) 4).2.2 (new_chars (uninit 1) 40) 40).2.2,
      ?_, by simp [fallback_joints]⟩
    simp only [read_joints, hv, Option.bind_eq_bind, Option.some_bind, if_pos hc, Option.pure_def,
      fallback_joints]
  · refine ⟨frame_joints (socket_read.read_socket
      (socket_read.read_socket t (new_chars (uninit 0) 4) 4).2.2 (new_chars (uninit 1) L) L).2.1,
      (socket_read.read_socket
      (socket_read.read_socket t (new_chars (uninit 0) 4) 4).2.2 (new_chars (uninit 1) L) L).2.2,
      ?_, by simp [frame_joints]⟩
    simp only [read_joints, hv, Option.bind_eq_bind, Option.some_bind, if_neg hc, Option.pure_def,
      hloop]


/-! ## The copy loops of `on_configure` and `read` -/

theorem take_succ_set {α : Type} (x : α) :
    ∀ (st : List α) (i : Nat), i < st.length → (st.set i x).take (i + 1) = st.take i ++ [x] := by
  intro st
  induction st with
  | nil => intro i h; simp at h
  | cons y ys ih =>
    intro i h
    cases i with
    | zero => simp
    | succ j =>
      have hj : j < ys.length := by simpa using h
      simp [ih j hj]

theorem take_succ_drop {α : Type} (cp : List α) (i k : Nat) (h : i < cp.length) :
    (cp.drop i).take (k + 1) = cp[i] :: (cp.drop (i + 1)).take k := by
  rw [List.drop_eq_getElem_cons h, List.take_succ_cons]

theorem read_loop (cp : List CFloat) (a : Int) (b : Bool) (cmd : List CDouble) :
    ∀ (k i : Nat) (st : List CDouble), i + k = st.length → st.length ≤ cp.length →
      for_loop (read_body cp) k i ⟨a, b, st, cmd⟩
        = some ⟨a, b, st.take i ++ ((cp.drop i).take k).map float_to_double, cmd⟩ := by
  intro k
  induction k with
  | zero =>
    intro i st h _
    have : i = st.length := by omega
    subst this
    simp [for_loop]
  | succ k ih =>
    intro i st h hcp
    have hi : i < st.length := by omega
    have hic : i < cp.length := by omega
    have hbody : read_body cp i ⟨a, b, st, cmd⟩
        = some ⟨a, b, st.set i (float_to_double cp[i]), cmd⟩ := by
      simp [read_body, vec_set, hi, List.getElem?_eq_getElem hic]
    rw [for_loop, hbody, Option.some_bind, ih (i + 1) _ (by simp; omega) (by simp; omega)]
    congr 2
    rw [take_succ_set _ _ _ hi, take_succ_drop _ _ _ hic]
    simp

theorem configure_loop (cp : List CFloat) (a : Int) (b : Bool) :
    ∀ (k i : Nat) (st cmd : List CDouble), i + k = st.length → st.length ≤ cp.length →
      st.length ≤ cmd.length →
      for_loop (on_configure_body cp) k i ⟨a, b, st, cmd⟩
        = some ⟨a, b, st.take i ++ ((cp.drop i).take k).map float_to_double,
            cmd.take i ++ List.replicate k double_zero ++ cmd.drop (i + k)⟩ := by
  intro k
  induction k with
  | zero =>
    intro i st cmd h _ _
    have : i = st.length := by omega
    subst this
    simp [for_loop]
  | succ k ih =>
    intro i st cmd h hcp hcmd
    have hi : i < st.length := by omega
    have hic : i < cp.length := by omega
    have him : i < cmd.length := by omega
    have hbody : on_configure_body cp i ⟨a, b, st, cmd⟩
        = some ⟨a, b, st.set i (float_to_double cp[i]), cmd.set i double_zero⟩ := by
      simp [on_configure_body, vec_set, hi, him, List.getElem?_eq_getElem hic]
    rw [for_loop, hbody, Option.some_bind,
      ih (i + 1) _ _ (by simp; omega) (by simp; omega) (by simp; omega)]
    have hd : List.drop (i + 1 + k) (cmd.set i double_zero) = List.drop (i + (k + 1)) cmd := by
      rw [List.drop_set_of_lt _ _ (by omega)]
      congr 1; omega
    rw [take_succ_set _ _ _ hi, take_succ_set _ _ _ him, take_succ_drop _ _ _ hic, hd]
    simp [List.replicate_succ]

/-- What `read` does once the poll has returned: it copies the first
`hw_states_.size()` joints into the state buffer. -/
theorem read_of_read_joints (L : Nat) (uninit : Nat → Nat → Byte) (self : FanucHardwareInterface)
    (t t' : Transport) (joints : List CFloat)
    (hr : read_joints L uninit t = some ((true, joints), t'))
    (hn : self.hw_states_.length ≤ joints.length) :
    FanucHardwareInterface.read L uninit self t = some (return_type.OK,
      ⟨self.sock_, self.socket_created_,
        (joints.take self.hw_states_.length).map float_to_double, self.hw_commands_⟩, t') := by
  rcases self with ⟨a, b, st, cmd⟩
  have hl := read_loop joints a b cmd st.length 0 st (by simp) hn
  simp only [List.take_zero, List.nil_append, List.drop_zero] at hl
  simp [FanucHardwareInterface.read, hr, hl]

/-- What `on_configure` does once the poll has returned. -/
theorem on_configure_of_read_joints (L : Nat) (uninit : Nat → Nat → Byte)
    (self : FanucHardwareInterface) (t t' : Transport) (joints : List CFloat)
    (hr : read_joints L uninit t = some ((true, joints), t'))
    (hn : self.hw_states_.length ≤ joints.length)
    (hc : self.hw_states_.length ≤ self.hw_commands_.length) :
    on_configure L uninit self t = some (CallbackReturn.SUCCESS,
      ⟨self.sock_, self.socket_created_,
        (joints.take self.hw_states_.length).map float_to_double,
        List.replicate self.hw_states_.length double_zero
          ++ self.hw_commands_.drop self.hw_states_.length⟩, t') := by
  rcases self with ⟨a, b, st, cmd⟩
  have hl := configure_loop joints a b st.length 0 st cmd (by simp) hn hc
  simp only [List.take_zero, List.nil_append, List.drop_zero, Nat.zero_add] at hl
  simp [on_configure, hr, hl]

theorem float_to_double_zero : float_to_double float_zero = double_zero := by decide

theorem map_take_fallback (n : Nat) (h : n ≤ 6) :
    (fallback_joints.take n).map float_to_double = List.replicate n double_zero := by
  interval_cases n <;> decide

/-! ## Byte order -/

theorem le_word_lt (b0 b1 b2 b3 : Byte) : le_word b0 b1 b2 b3 < 2 ^ 32 := by
  have h0 := b0.isLt; have h1 := b1.isLt; have h2 := b2.isLt; have h3 := b3.isLt
  simp only [le_word]; omega

theorem decode_joint_encode_be (V : Nat) (hV : V < 2 ^ 32) :
    decode_joint (encode_be V) 0 = some ⟨V⟩ := by
  simp only [decode_joint, encode_be, memcpy_float, le_word]
  simp
  omega

theorem to_int32_eq_memcpy_int (b0 b1 b2 b3 : Byte) :
    memcpy_int b0 b1 b2 b3 = to_int32 (le_word b0 b1 b2 b3) := rfl

theorem decode_length_encode_be (V : Nat) (hV : V < 2 ^ 32) :
    decode_length (encode_be V) = some (to_int32 V) := by
  have h := decode_joint_encode_be V hV
  simp only [decode_joint, encode_be, memcpy_float] at h
  simp at h
  simp only [decode_length, encode_be, to_int32_eq_memcpy_int]
  simp [h]

theorem encode_be_le_word (b0 b1 b2 b3 : Byte) :
    encode_be (le_word b3 b2 b1 b0) = [b0, b1, b2, b3] := by
  have h0 := b0.isLt; have h1 := b1.isLt; have h2 := b2.isLt; have h3 := b3.isLt
  simp only [encode_be, le_word]
  simp only [List.cons.injEq, and_true, Fin.ext_iff]
  refine ⟨?_, ?_, ?_, ?_⟩ <;> omega

theorem to_int32_mod (w : Nat) (h : w < 2 ^ 32) : (to_int32 w % 2 ^ 32).toNat = w := by
  simp only [to_int32]
  split <;> omega


/-! ## Claims -/

/-- C1. A stream that starts with the length bytes `00 00 00 38` followed by a
status payload of `state_buffer_length_` bytes, every read completing in full:
`read_joints` returns success with exactly 6 values, and the bit pattern of
value `i` is the big-endian word of payload bytes `20+4i .. 20+4i+3`; the frame
and nothing else has been consumed. -/
theorem C1_read_joints_status_frame (L : Nat) (uninit : Nat → Nat → Byte) (t : Transport)
    (payload rest : List Byte) (hL : 44 ≤ L) (hp : payload.length = L)
    (ht : t.incoming = [0, 0, 0, 56] ++ payload ++ rest)
    (hf : reads_in_full [4, L] t = true) :
    ∃ joints t', read_joints L uninit t = some ((true, joints), t')
      ∧ t'.incoming = rest
      ∧ joints.length = 6
      ∧ ∀ i, i < 6 → (joints.getD i float_zero).bits
          = be_word (payload.getD (20 + 4 * i) 0) (payload.getD (20 + 4 * i + 1) 0)
              (payload.getD (20 + 4 * i + 2) 0) (payload.getD (20 + 4 * i + 3) 0) := by
  obtain ⟨h, hi⟩ := read_joints_status_frame L uninit t payload rest hL hp ht hf
  refine ⟨frame_joints payload, _, h, hi, frame_joints_length payload, ?_⟩
  intro i hi
  interval_cases i <;> rfl

/-- Witness of C1: the 56-byte payload carrying `42 B5 00 00` at offset 20,
delivered by two reads that complete in full. -/
theorem C1_read_joints_status_frame_witness :
    ∃ joints t', read_joints 56 example_uninit
          ⟨[0, 0, 0, 56] ++ example_payload ++ [1, 2, 3],
            [ReadEvent.deliver 4, ReadEvent.deliver 56]⟩
        = some ((true, joints), t')
      ∧ t'.incoming = [1, 2, 3]
      ∧ joints.length = 6
      ∧ ∀ i, i < 6 → (joints.getD i float_zero).bits
          = be_word (example_payload.getD (20 + 4 * i) 0) (example_payload.getD (20 + 4 * i + 1) 0)
              (example_payload.getD (20 + 4 * i + 2) 0) (example_payload.getD (20 + 4 * i + 3) 0) :=
  C1_read_joints_status_frame 56 example_uninit
    ⟨[0, 0, 0, 56] ++ example_payload ++ [1, 2, 3], [ReadEvent.deliver 4, ReadEvent.deliver 56]⟩
    example_payload [1, 2, 3] (by decide) (by decide) rfl (by decide)

/-- The example of the specification: joint 1 of the example payload is `90.5f`,
bit pattern `42B50000`. -/
theorem example_payload_decodes_90_5 :
    read_joints 56 example_uninit ⟨[0, 0, 0, 56] ++ example_payload, []⟩
      = some ((true, [⟨0x42B50000⟩, ⟨0⟩, ⟨0⟩, ⟨0⟩, ⟨0⟩, ⟨0⟩]), ⟨[], []⟩) := by
  decide

/-- Counterexample to C2 as stated: the length read reports failure (`-1`), and
the poll returns the six zeros as success having consumed 40 bytes of the
47-byte stream, not 44: the failed read consumed nothing. -/
theorem C2_counterexample :
    (socket_read.read_socket ⟨example_error_frame ++ [1, 2, 3], [ReadEvent.error]⟩
          (new_chars (example_uninit 0) 4) 4).1 = -1
      ∧ read_joints 56 example_uninit ⟨example_error_frame ++ [1, 2, 3], [ReadEvent.error]⟩
          = some ((true, List.replicate 6 float_zero), ⟨[0xEE, 0xEE, 0xEE, 0xEE, 1, 2, 3], []⟩)
      ∧ (example_error_frame ++ [1, 2, 3]).length
          - [(0xEE : Byte), 0xEE, 0xEE, 0xEE, 1, 2, 3].length = 40 := by
  decide

/-- C2 (amended). (a) When the first 4 bytes decode big-endian to a length other
than 56 and both reads complete in full, one call of `read_joints` consumes
exactly the 4 + 40 = 44 bytes of the frame and returns six zeros, as success.
(b) When the length read itself reports failure, the call also returns six
zeros as success; the length read consumed nothing, so the bytes consumed are
those of the 40-byte drain alone, at most 40. -/
theorem C2_read_joints_error_frame (L : Nat) (uninit : Nat → Nat → Byte) :
    (∀ (t : Transport) (b0 b1 b2 b3 : Byte) (body rest : List Byte),
        be_word b0 b1 b2 b3 ≠ 56 → body.length = 40 →
        t.incoming = [b0, b1, b2, b3] ++ body ++ rest → reads_in_full [4, 40] t = true →
        ∃ t', read_joints L uninit t = some ((true, List.replicate 6 float_zero), t')
          ∧ t'.incoming = rest
          ∧ t.incoming.length - t'.incoming.length = 44)
    ∧ (∀ (incoming : List Byte) (es : List ReadEvent),
        (socket_read.read_socket ⟨incoming, ReadEvent.error :: es⟩
            (new_chars (uninit 0) 4) 4).1 = -1
        ∧ ∃ t', read_joints L uninit ⟨incoming, ReadEvent.error :: es⟩
              = some ((true, List.replicate 6 float_zero), t')
            ∧ t' = (socket_read.read_socket ⟨incoming, es⟩ (new_chars (uninit 1) 40) 40).2.2
            ∧ incoming.length - t'.incoming.length ≤ 40) := by
  constructor
  · intro t b0 b1 b2 b3 body rest hne hb ht hf
    obtain ⟨h, hi⟩ := read_joints_error_frame L uninit t b0 b1 b2 b3 body rest hne hb ht hf
    refine ⟨_, h, hi, ?_⟩
    rw [hi, ht]
    simp only [List.length_append, List.length_cons, List.length_nil, hb]; omega
  · intro incoming es
    refine ⟨rfl, _, read_joints_length_read_error L uninit incoming es,
      (read_socket_transport _ _ _).symm, ?_⟩
    exact after_read_consumed ⟨incoming, es⟩ 40

/-- Witness of C2 (amended): an error frame with declared length 40. -/
theorem C2_read_joints_error_frame_witness :
    ∃ t', read_joints 56 example_uninit
          ⟨[0, 0, 0, 40] ++ List.replicate 40 0xEE ++ [1, 2, 3], []⟩
        = some ((true, List.replicate 6 float_zero), t')
      ∧ t'.incoming = [1, 2, 3]
      ∧ (Transport.mk ([0, 0, 0, 40] ++ List.replicate 40 0xEE ++ [1, 2, 3]) []).incoming.length
          - t'.incoming.length = 44 :=
  (C2_read_joints_error_frame 56 example_uninit).1
    ⟨[0, 0, 0, 40] ++ List.replicate 40 0xEE ++ [1, 2, 3], []⟩ 0 0 0 40
    (List.replicate 40 0xEE) [1, 2, 3] (by decide) (by decide) rfl (by decide)

/-- C3. A malformed frame (length bytes decoding to something other than 56,
then its 40-byte payload) immediately followed by a valid status frame, every
read completing in full: the first call of `read_joints` returns six zeros, the
second call returns exactly the six joints encoded at offsets `20+4i` of the
second payload, and both frames have been consumed. -/
theorem C3_no_desynchronisation (L : Nat) (uninit uninit' : Nat → Nat → Byte) (t : Transport)
    (b0 b1 b2 b3 : Byte) (body payload rest : List Byte)
    (hne : be_word b0 b1 b2 b3 ≠ 56) (hb : body.length = 40)
    (hL : 44 ≤ L) (hp : payload.length = L)
    (ht : t.incoming = ([b0, b1, b2, b3] ++ body) ++ (([0, 0, 0, 56] ++ payload) ++ rest))
    (hf : reads_in_full [4, 40, 4, L] t = true) :
    ∃ t1 t2, read_joints L uninit t = some ((true, List.replicate 6 float_zero), t1)
      ∧ read_joints L uninit' t1 = some ((true, frame_joints payload), t2)
      ∧ t2.incoming = rest := by
  have hf' := hf
  rw [reads_in_full_cons, reads_in_full_cons] at hf'
  obtain ⟨hf1, hf2, hf3⟩ := hf'
  have hfa : reads_in_full [4, 40] t = true := by
    rw [reads_in_full_cons, reads_in_full_cons]; exact ⟨hf1, hf2, rfl⟩
  obtain ⟨h1, i1⟩ := read_joints_error_frame L uninit t b0 b1 b2 b3 body
    ([0, 0, 0, 56] ++ payload ++ rest) hne hb ht hfa
  obtain ⟨h2, i2⟩ := read_joints_status_frame L uninit' _ payload rest hL hp i1 hf3
  exact ⟨_, _, h1, h2, i2⟩

/-- Witness of C3: the example error frame followed by the example status
frame. -/
theorem C3_no_desynchronisation_witness :
    ∃ t1 t2, read_joints 56 example_uninit
          ⟨([0, 0, 0, 40] ++ List.replicate 40 0xEE) ++ (([0, 0, 0, 56] ++ example_payload) ++ []),
            []⟩
        = some ((true, List.replicate 6 float_zero), t1)
      ∧ read_joints 56 example_uninit t1 = some ((true, frame_joints example_payload), t2)
      ∧ t2.incoming = [] :=
  C3_no_desynchronisation 56 example_uninit example_uninit
    ⟨([0, 0, 0, 40] ++ List.replicate 40 0xEE) ++ (([0, 0, 0, 56] ++ example_payload) ++ []), []⟩
    0 0 0 40 (List.replicate 40 0xEE) example_payload []
    (by decide) (by decide) (by decide) (by decide) rfl (by decide)

/-- C4. Byte-order round trip of the decoder's conversion (reverse the four wire
bytes, then copy them into a little-endian host word), as done for the length
at lines 187-189 and for each joint window at lines 234-236: decoding the
big-endian encoding of a 32-bit value `V` yields `V` (as a float bit pattern,
and as the two's complement `int`), and re-encoding big-endian what was decoded
from four wire bytes yields those bytes again. -/
theorem C4_byte_order_round_trip (V : Nat) (hV : V < 2 ^ 32) (b0 b1 b2 b3 : Byte) :
    (decode_joint (encode_be V) 0 = some ⟨V⟩
      ∧ decode_length (encode_be V) = some (to_int32 V))
    ∧ (∃ f v, decode_joint [b0, b1, b2, b3] 0 = some f
        ∧ decode_length [b0, b1, b2, b3] = some v
        ∧ encode_be f.bits = [b0, b1, b2, b3]
        ∧ encode_be (v % 2 ^ 32).toNat = [b0, b1, b2, b3]) := by
  refine ⟨⟨decode_joint_encode_be V hV, decode_length_encode_be V hV⟩,
    ⟨memcpy_float b3 b2 b1 b0, memcpy_int b3 b2 b1 b0, ?_, ?_, ?_, ?_⟩⟩
  · simp [decode_joint]
  · simp [decode_length]
  · exact encode_be_le_word b0 b1 b2 b3
  · rw [to_int32_eq_memcpy_int, to_int32_mod _ (le_word_lt _ _ _ _)]
    exact encode_be_le_word b0 b1 b2 b3

/-- Witness of C4: the bit pattern of `90.5f` and the wire bytes `FF FF FF C8`
(the `int` -56). -/
theorem C4_byte_order_round_trip_witness :
    (decode_joint (encode_be 0x42B50000) 0 = some ⟨0x42B50000⟩
      ∧ decode_length (encode_be 0x42B50000) = some (to_int32 0x42B50000))
    ∧ (∃ f v, decode_joint [0xFF, 0xFF, 0xFF, 0xC8] 0 = some f
        ∧ decode_length [0xFF, 0xFF, 0xFF, 0xC8] = some v
        ∧ encode_be f.bits = [0xFF, 0xFF, 0xFF, 0xC8]
        ∧ encode_be (v % 2 ^ 32).toNat = [0xFF, 0xFF, 0xFF, 0xC8]) :=
  C4_byte_order_round_trip 0x42B50000 (by decide) 0xFF 0xFF 0xFF 0xC8

/-- Counterexample to C5 as stated: the pair returned for a malformed frame and
the pair returned for a valid status frame encoding six zero joints are the
same pair, `(true, six zeros)`. -/
theorem C5_counterexample :
    be_word 0 0 0 40 ≠ 56
    ∧ (read_joints 56 example_uninit ⟨example_error_frame, []⟩).map Prod.fst
        = some (true, List.replicate 6 float_zero)
    ∧ (read_joints 56 example_uninit ⟨[0, 0, 0, 56] ++ zero_payload, []⟩).map Prod.fst
        = some (true, List.replicate 6 float_zero) := by
  decide

/-- C5 (amended). The first component of the pair returned by `read_joints` is
`true` for a malformed frame and for a valid status frame alike, so it does not
separate a fallback from a genuine reading; the two pairs differ exactly when
the six joints encoded in the status frame are not all the zero bit pattern. -/
theorem C5_no_fallback_tag (L : Nat) (uninit uninit' : Nat → Nat → Byte) (t t' : Transport)
    (b0 b1 b2 b3 : Byte) (body rest payload rest' : List Byte)
    (hne : be_word b0 b1 b2 b3 ≠ 56) (hb : body.length = 40)
    (ht : t.incoming = [b0, b1, b2, b3] ++ body ++ rest) (hf : reads_in_full [4, 40] t = true)
    (hL : 44 ≤ L) (hp : payload.length = L)
    (ht' : t'.incoming = [0, 0, 0, 56] ++ payload ++ rest')
    (hf' : reads_in_full [4, L] t' = true) :
    ∃ bad ok,
      (read_joints L uninit t).map Prod.fst = some bad
      ∧ (read_joints L uninit' t').map Prod.fst = some ok
      ∧ bad.1 = true ∧ ok.1 = true
      ∧ (bad ≠ ok ↔ frame_joints payload ≠ List.replicate 6 float_zero) := by
  refine ⟨(true, fallback_joints), (true, frame_joints payload), ?_, ?_, rfl, rfl, ?_⟩
  · rw [(read_joints_error_frame L uninit t b0 b1 b2 b3 body rest hne hb ht hf).1]; rfl
  · rw [(read_joints_status_frame L uninit' t' payload rest' hL hp ht' hf').1]; rfl
  · simp only [fallback_joints, ne_eq, Prod.mk.injEq, true_and]
    exact not_congr eq_comm

/-- Witness of C5 (amended): the example error frame against the example status
frame, whose first joint is not zero. -/
theorem C5_no_fallback_tag_witness :
    ∃ bad ok,
      (read_joints 56 example_uninit
          ⟨[0, 0, 0, 40] ++ List.replicate 40 0xEE ++ [], []⟩).map Prod.fst = some bad
      ∧ (read_joints 56 example_uninit
          ⟨[0, 0, 0, 56] ++ example_payload ++ [], []⟩).map Prod.fst = some ok
      ∧ bad.1 = true ∧ ok.1 = true
      ∧ (bad ≠ ok ↔ frame_joints example_payload ≠ List.replicate 6 float_zero) :=
  C5_no_fallback_tag 56 example_uninit example_uninit
    ⟨[0, 0, 0, 40] ++ List.replicate 40 0xEE ++ [], []⟩
    ⟨[0, 0, 0, 56] ++ example_payload ++ [], []⟩ 0 0 0 40 (List.replicate 40 0xEE) []
    example_payload [] (by decide) (by decide) rfl (by decide) (by decide) (by decide) rfl
    (by decide)

/-- Counterexample to C6 as stated: the length read of the cycle returns `-1`,
and `read` returns `OK` (with the state buffer overwritten by zeros). -/
theorem C6_counterexample :
    (socket_read.read_socket ⟨example_error_frame, [ReadEvent.error]⟩
        (new_chars (example_uninit 0) 4) 4).1 = -1
    ∧ FanucHardwareInterface.read 56 example_uninit example_state
        ⟨example_error_frame, [ReadEvent.error]⟩
      = some (return_type.OK,
          ⟨3, true, List.replicate 6 double_zero, List.replicate 6 quiet_NaN⟩,
          ⟨[0xEE, 0xEE, 0xEE, 0xEE], []⟩) := by
  decide

/-- C6 (amended). In a cycle whose 4-byte length read fails hard (returns `-1`),
`read` does not return `ERROR`: `read_joints` takes its fallback path and
reports success, so `read` returns `OK`, overwrites every state-buffer entry
with zero and leaves the command buffer unchanged (state buffer of at most 6
entries). Nothing is said about a failure of the payload read. -/
theorem C6_read_ok_on_failed_length_read (L : Nat) (uninit : Nat → Nat → Byte)
    (self : FanucHardwareInterface) (incoming : List Byte) (es : List ReadEvent)
    (hn : self.hw_states_.length ≤ 6) :
    (socket_read.read_socket ⟨incoming, ReadEvent.error :: es⟩
        (new_chars (uninit 0) 4) 4).1 = -1
    ∧ ∃ t', FanucHardwareInterface.read L uninit self ⟨incoming, ReadEvent.error :: es⟩
      = some (return_type.OK,
          ⟨self.sock_, self.socket_created_,
            List.replicate self.hw_states_.length double_zero, self.hw_commands_⟩, t') := by
  refine ⟨rfl, after_read ⟨incoming, es⟩ 40, ?_⟩
  rw [read_of_read_joints L uninit self _ _ _ (read_joints_length_read_error L uninit incoming es)
    (by rw [fallback_joints_length]; exact hn), map_take_fallback _ hn]

/-- Witness of C6 (amended): the freshly initialised instance. -/
theorem C6_read_ok_on_failed_length_read_witness :
    (socket_read.read_socket ⟨example_error_frame, ReadEvent.error :: []⟩
        (new_chars (example_uninit 0) 4) 4).1 = -1
    ∧ ∃ t', FanucHardwareInterface.read 56 example_uninit example_state
        ⟨example_error_frame, ReadEvent.error :: []⟩
      = some (return_type.OK,
          ⟨example_state.sock_, example_state.socket_created_,
            List.replicate example_state.hw_states_.length double_zero,
            example_state.hw_commands_⟩, t') :=
  C6_read_ok_on_failed_length_read 56 example_uninit example_state example_error_frame []
    (by decide)

/-- Counterexample to C7 as stated: the read of the 56-byte status payload
delivers only 10 bytes, and the poll does not fail: it returns success with six
joints taken from the part of the buffer that was never filled (bytes `AA`). -/
theorem C7_counterexample :
    (socket_read.read_socket ⟨example_payload, [ReadEvent.deliver 10]⟩
        (new_chars (example_uninit 1) 56) 56).1 = 10
    ∧ read_joints 56 example_uninit
        ⟨[0, 0, 0, 56] ++ example_payload, [ReadEvent.deliver 4, ReadEvent.deliver 10]⟩
      = some ((true, List.replicate 6 ⟨0xAAAAAAAA⟩), ⟨example_payload.drop 10, []⟩) := by
  decide

/-- C7 (amended). `read_joints` has no failing outcome: on every transport,
also one on which a read returns fewer bytes than requested (or `-1`), the poll
returns with first component `true` and a vector of six values
(`state_buffer_length_` at least 44). The number of bytes a read returned is
not compared with the number requested. -/
theorem C7_read_joints_never_fails (L : Nat) (uninit : Nat → Nat → Byte) (t : Transport)
    (hL : 44 ≤ L) :
    ∃ joints t', read_joints L uninit t = some ((true, joints), t') ∧ joints.length = 6 :=
  read_joints_total L uninit t hL

/-- Witness of C7 (amended): the short read of the counterexample. -/
theorem C7_read_joints_never_fails_witness :
    ∃ joints t', read_joints 56 example_uninit
        ⟨[0, 0, 0, 56] ++ example_payload, [ReadEvent.deliver 4, ReadEvent.deliver 10]⟩
      = some ((true, joints), t') ∧ joints.length = 6 :=
  C7_read_joints_never_fails 56 example_uninit _ (by decide)

/-- Counterexample to C8 as stated: on a malformed frame `on_configure`
overwrites the state buffer (six NaN) and the command buffer (six NaN) with
zeros; neither buffer is left unchanged. -/
theorem C8_counterexample :
    be_word 0 0 0 40 ≠ 56
    ∧ on_configure 56 example_uninit example_state ⟨example_error_frame, []⟩
      = some (CallbackReturn.SUCCESS,
          ⟨3, true, List.replicate 6 double_zero, List.replicate 6 double_zero⟩, ⟨[], []⟩)
    ∧ example_state.hw_states_ ≠ List.replicate 6 double_zero
    ∧ example_state.hw_commands_ ≠ List.replicate 6 double_zero := by
  decide

/-- C8 (amended). On a stream that starts with a malformed frame (declared
length other than 56, reads completing in full) `on_configure` returns SUCCESS,
and the fallback is copied like a reading: every state-buffer entry becomes
zero and every command-buffer entry below `hw_states_.size()` becomes zero
(state buffer of at most 6 entries, command buffer at least as long). -/
theorem C8_on_configure_fallback (L : Nat) (uninit : Nat → Nat → Byte)
    (self : FanucHardwareInterface) (t : Transport) (b0 b1 b2 b3 : Byte) (body rest : List Byte)
    (hne : be_word b0 b1 b2 b3 ≠ 56) (hb : body.length = 40)
    (ht : t.incoming = [b0, b1, b2, b3] ++ body ++ rest) (hf : reads_in_full [4, 40] t = true)
    (hn : self.hw_states_.length ≤ 6)
    (hc : self.hw_states_.length ≤ self.hw_commands_.length) :
    ∃ t', on_configure L uninit self t
        = some (CallbackReturn.SUCCESS,
            ⟨self.sock_, self.socket_created_,
              List.replicate self.hw_states_.length double_zero,
              List.replicate self.hw_states_.length double_zero
                ++ self.hw_commands_.drop self.hw_states_.length⟩, t')
      ∧ t'.incoming = rest := by
  obtain ⟨h, hi⟩ := read_joints_error_frame L uninit t b0 b1 b2 b3 body rest hne hb ht hf
  refine ⟨_, ?_, hi⟩
  rw [on_configure_of_read_joints L uninit self _ _ _ h
    (by rw [fallback_joints_length]; exact hn) hc, map_take_fallback _ hn]

/-- Witness of C8 (amended): the freshly initialised instance and the example
error frame. -/
theorem C8_on_configure_fallback_witness :
    ∃ t', on_configure 56 example_uninit example_state
          ⟨[0, 0, 0, 40] ++ List.replicate 40 0xEE ++ [], []⟩
        = some (CallbackReturn.SUCCESS,
            ⟨example_state.sock_, example_state.socket_created_,
              List.replicate example_state.hw_states_.length double_zero,
              List.replicate example_state.hw_states_.length double_zero
                ++ example_state.hw_commands_.drop example_state.hw_states_.length⟩, t')
      ∧ t'.incoming = [] :=
  C8_on_configure_fallback 56 example_uninit example_state
    ⟨[0, 0, 0, 40] ++ List.replicate 40 0xEE ++ [], []⟩ 0 0 0 40 (List.replicate 40 0xEE) []
    (by decide) (by decide) rfl (by decide) (by decide) (by decide)

/-- C9. From an initialised state (both buffers of 6 entries) and a stream that
starts with a valid status frame (reads completing in full), `on_configure`
returns SUCCESS, sets state-buffer entry `i` to joint `i` of the frame widened
to `double`, for every `i`, and sets every command-buffer entry to 0. -/
theorem C9_on_configure_status_frame (L : Nat) (uninit : Nat → Nat → Byte)
    (self : FanucHardwareInterface) (t : Transport) (payload rest : List Byte)
    (hL : 44 ≤ L) (hp : payload.length = L)
    (ht : t.incoming = [0, 0, 0, 56] ++ payload ++ rest) (hf : reads_in_full [4, L] t = true)
    (hs : self.hw_states_.length = 6) (hc : self.hw_commands_.length = 6) :
    ∃ self' t', on_configure L uninit self t = some (CallbackReturn.SUCCESS, self', t')
      ∧ t'.incoming = rest
      ∧ self'.hw_states_.length = 6 ∧ self'.hw_commands_.length = 6
      ∧ (∀ i, i < 6 →
          self'.hw_states_[i]? = some (float_to_double (frame_joint payload i))
          ∧ self'.hw_commands_[i]? = some double_zero)
      ∧ self'.sock_ = self.sock_ ∧ self'.socket_created_ = self.socket_created_ := by
  obtain ⟨hr, hi⟩ := read_joints_status_frame L uninit t payload rest hL hp ht hf
  have h := on_configure_of_read_joints L uninit self _ _ _ hr
    (by rw [frame_joints_length, hs]) (by rw [hs, hc])
  rw [hs, ← hc, List.drop_length, List.append_nil, hc] at h
  refine ⟨_, _, h, hi, by simp [frame_joints], by simp, ?_, rfl, rfl⟩
  intro i hi
  interval_cases i <;> exact ⟨rfl, rfl⟩

/-- Witness of C9: the freshly initialised instance and the example status
frame. -/
theorem C9_on_configure_status_frame_witness :
    ∃ self' t', on_configure 56 example_uninit example_state
          ⟨[0, 0, 0, 56] ++ example_payload ++ [], []⟩
        = some (CallbackReturn.SUCCESS, self', t')
      ∧ t'.incoming = []
      ∧ self'.hw_states_.length = 6 ∧ self'.hw_commands_.length = 6
      ∧ (∀ i, i < 6 →
          self'.hw_states_[i]? = some (float_to_double (frame_joint example_payload i))
          ∧ self'.hw_commands_[i]? = some double_zero)
      ∧ self'.sock_ = example_state.sock_
      ∧ self'.socket_created_ = example_state.socket_created_ :=
  C9_on_configure_status_frame 56 example_uninit example_state
    ⟨[0, 0, 0, 56] ++ example_payload ++ [], []⟩ example_payload []
    (by decide) (by decide) rfl (by decide) (by decide) (by decide)

/-- The example of C9 evaluated: joint 1 becomes the `double` 90.5, bit pattern
`4056A00000000000`. -/
theorem example_on_configure_90_5 :
    on_configure 56 example_uninit example_state ⟨[0, 0, 0, 56] ++ example_payload, []⟩
      = some (CallbackReturn.SUCCESS,
          ⟨3, true, [⟨0x4056A00000000000⟩, ⟨0⟩, ⟨0⟩, ⟨0⟩, ⟨0⟩, ⟨0⟩], List.replicate 6 ⟨0⟩⟩,
          ⟨[], []⟩) := by
  decide

/-- C10. From a state whose state buffer has 6 entries, on every cycle (in
particular every cycle without a hard transport error) `read` returns OK,
overwrites state-buffer entry `i` with entry `i` of the vector returned by
`read_joints`, widened to `double`, and leaves the command buffer unchanged;
that vector is the decoded joints for a status frame and six zeros for an
error frame (reads completing in full). -/
theorem C10_read_overwrites_state (L : Nat) (uninit : Nat → Nat → Byte)
    (self : FanucHardwareInterface) (hL : 44 ≤ L) (hs : self.hw_states_.length = 6) :
    (∀ t : Transport, ∃ joints t', read_joints L uninit t = some ((true, joints), t')
        ∧ joints.length = 6
        ∧ FanucHardwareInterface.read L uninit self t = some (return_type.OK,
            ⟨self.sock_, self.socket_created_, joints.map float_to_double, self.hw_commands_⟩,
            t'))
    ∧ (∀ (t : Transport) (payload rest : List Byte), payload.length = L →
        t.incoming = [0, 0, 0, 56] ++ payload ++ rest → reads_in_full [4, L] t = true →
        ∃ t', FanucHardwareInterface.read L uninit self t
          = some (return_type.OK,
              ⟨self.sock_, self.socket_created_, (frame_joints payload).map float_to_double,
                self.hw_commands_⟩, t') ∧ t'.incoming = rest)
    ∧ (∀ (t : Transport) (b0 b1 b2 b3 : Byte) (body rest : List Byte),
        be_word b0 b1 b2 b3 ≠ 56 → body.length = 40 →
        t.incoming = [b0, b1, b2, b3] ++ body ++ rest → reads_in_full [4, 40] t = true →
        ∃ t', FanucHardwareInterface.read L uninit self t
          = some (return_type.OK,
              ⟨self.sock_, self.socket_created_, List.replicate 6 double_zero,
                self.hw_commands_⟩, t') ∧ t'.incoming = rest) := by
  refine ⟨?_, ?_, ?_⟩
  · intro t
    obtain ⟨joints, t', hr, hlen⟩ := read_joints_total L uninit t hL
    refine ⟨joints, t', hr, hlen, ?_⟩
    rw [read_of_read_joints L uninit self t t' joints hr (by omega), hs, ← hlen, List.take_length]
  · intro t payload rest hp ht hf
    obtain ⟨hr, hi⟩ := read_joints_status_frame L uninit t payload rest hL hp ht hf
    refine ⟨_, ?_, hi⟩
    rw [read_of_read_joints L uninit self _ _ _ hr (by rw [frame_joints_length, hs]),
      hs, ← frame_joints_length payload, List.take_length]
  · intro t b0 b1 b2 b3 body rest hne hb ht hf
    obtain ⟨hr, hi⟩ := read_joints_error_frame L uninit t b0 b1 b2 b3 body rest hne hb ht hf
    refine ⟨_, ?_, hi⟩
    rw [read_of_read_joints L uninit self _ _ _ hr (by rw [fallback_joints_length, hs]), hs,
      map_take_fallback 6 (le_refl 6)]

/-- Witness of C10: the freshly initialised instance reading the example status
frame, whose first joint is `90.5`. -/
theorem C10_read_overwrites_state_witness :
    ∃ t', FanucHardwareInterface.read 56 example_uninit example_state
          ⟨[0, 0, 0, 56] ++ example_payload ++ [], []⟩
        = some (return_type.OK,
            ⟨example_state.sock_, example_state.socket_created_,
              (frame_joints example_payload).map float_to_double, example_state.hw_commands_⟩,
            t') ∧ t'.incoming = [] :=
  (C10_read_overwrites_state 56 example_uninit example_state (by decide) (by decide)).2.1
    ⟨[0, 0, 0, 56] ++ example_payload ++ [], []⟩ example_payload [] (by decide) rfl (by decide)

/-! ## Activation -/

theorem activate_loop (a : Int) (b : Bool) (st : List CDouble) :
    ∀ (k i : Nat) (cmd : List CDouble), i + k = st.length → st.length ≤ cmd.length →
      for_loop on_activate_body k i ⟨a, b, st, cmd⟩
        = some ⟨a, b, st, cmd.take i ++ (st.drop i).take k ++ cmd.drop (i + k)⟩ := by
  intro k
  induction k with
  | zero =>
    intro i cmd _ _
    simp [for_loop]
  | succ k ih =>
    intro i cmd h hcmd
    have hi : i < st.length := by omega
    have him : i < cmd.length := by omega
    have hbody : on_activate_body i ⟨a, b, st, cmd⟩ = some ⟨a, b, st, cmd.set i st[i]⟩ := by
      simp [on_activate_body, vec_set, him, List.getElem?_eq_getElem hi]
    rw [for_loop, hbody, Option.some_bind, ih (i + 1) _ (by omega) (by simp; omega)]
    have hd : List.drop (i + 1 + k) (cmd.set i st[i]) = List.drop (i + (k + 1)) cmd := by
      rw [List.drop_set_of_lt _ _ (by omega)]
      congr 1; omega
    rw [take_succ_set _ _ _ him, take_succ_drop _ _ _ hi, hd]
    simp

/-- The callback `on_activate` on buffers of the same size. -/
theorem on_activate_same_length (self : FanucHardwareInterface)
    (h : self.hw_states_.length = self.hw_commands_.length) :
    on_activate self = some (CallbackReturn.SUCCESS,
      ⟨self.sock_, self.socket_created_, self.hw_states_, self.hw_states_⟩) := by
  rcases self with ⟨a, b, st, cmd⟩
  simp only at h
  have hl := activate_loop a b st st.length 0 cmd (by simp) (le_of_eq h)
  simp only [List.take_zero, List.nil_append, List.drop_zero, Nat.zero_add, List.take_length] at hl
  have hd : List.drop st.length cmd = [] := by rw [h]; exact List.drop_length cmd
  rw [hd, List.append_nil] at hl
  simp [on_activate, hl]

/-- C11. For every state whose state and command buffers have the same length
(as after a successful `on_configure`), `on_activate` returns SUCCESS, leaves
the state buffer unchanged and makes the command buffer equal to it, entry by
entry. -/
theorem C11_on_activate_copies_state (self : FanucHardwareInterface)
    (h : self.hw_states_.length = self.hw_commands_.length) :
    ∃ self', on_activate self = some (CallbackReturn.SUCCESS, self')
      ∧ self'.hw_states_ = self.hw_states_
      ∧ self'.hw_commands_ = self.hw_states_
      ∧ (∀ i, i < self.hw_states_.length → self'.hw_commands_[i]? = self.hw_states_[i]?)
      ∧ self'.sock_ = self.sock_ ∧ self'.socket_created_ = self.socket_created_ := by
  exact ⟨_, on_activate_same_length self h, rfl, rfl, fun i _ => rfl, rfl, rfl⟩

/-- Witness of C11: a state buffer holding 90.5 and five zeros, a command buffer
of six NaN. -/
theorem C11_on_activate_copies_state_witness :
    ∃ self', on_activate
          ⟨3, true, [⟨0x4056A00000000000⟩, ⟨0⟩, ⟨0⟩, ⟨0⟩, ⟨0⟩, ⟨0⟩], List.replicate 6 quiet_NaN⟩
        = some (CallbackReturn.SUCCESS, self')
      ∧ self'.hw_states_ = [⟨0x4056A00000000000⟩, ⟨0⟩, ⟨0⟩, ⟨0⟩, ⟨0⟩, ⟨0⟩]
      ∧ self'.hw_commands_ = [⟨0x4056A00000000000⟩, ⟨0⟩, ⟨0⟩, ⟨0⟩, ⟨0⟩, ⟨0⟩]
      ∧ (∀ i, i < 6 → self'.hw_commands_[i]?
          = ([⟨0x4056A00000000000⟩, ⟨0⟩, ⟨0⟩, ⟨0⟩, ⟨0⟩, ⟨0⟩] : List CDouble)[i]?)
      ∧ self'.sock_ = 3 ∧ self'.socket_created_ = true :=
  C11_on_activate_copies_state
    ⟨3, true, [⟨0x4056A00000000000⟩, ⟨0⟩, ⟨0⟩, ⟨0⟩, ⟨0⟩, ⟨0⟩], List.replicate 6 quiet_NaN⟩
    (by decide)

/-! ## Initialisation and destruction -/

theorem size_to_int_of_lt (n : Nat) (h : n < 2 ^ 31) : size_to_int n = (n : Int) := by
  have h1 : n % 2 ^ 32 = n := Nat.mod_eq_of_lt (by omega)
  simp only [size_to_int, h1, if_pos h]

theorem vec_resize_length {α : Type} (v : List α) (n : Nat) (x : α) :
    (vec_resize v n x).length = n := by
  simp only [vec_resize, List.length_append, List.length_take, List.length_replicate]
  omega

theorem vec_resize_nil {α : Type} (n : Nat) (x : α) :
    vec_resize ([] : List α) n x = List.replicate n x := by
  simp [vec_resize]

/-- The result of `on_init` when every call it makes succeeds. -/
theorem on_init_success (N : Int) (env : InitEnv) (self : FanucHardwareInterface)
    (log : SocketLog) (info : HardwareInfo)
    (hbase : env.base_on_init = CallbackReturn.SUCCESS)
    (hcount : size_to_int info.joints.length = N)
    (hsock : 0 ≤ env.socket_ret) (haddr : 0 < env.inet_pton_ret) (hconn : 0 ≤ env.connect_ret) :
    on_init N env self log info
      = (CallbackReturn.SUCCESS,
          ⟨env.socket_ret, true, vec_resize self.hw_states_ info.joints.length quiet_NaN,
            vec_resize self.hw_commands_ info.joints.length quiet_NaN⟩,
          ⟨env.socket_ret :: log.created, log.closed⟩) := by
  have h1 : ¬ env.socket_ret < 0 := by omega
  have h2 : ¬ env.inet_pton_ret ≤ 0 := by omega
  have h3 : ¬ env.connect_ret < 0 := by omega
  simp [on_init, sys_socket, hbase, hcount, h1, h2, h3]

/-- A successful `on_init` means that every call it made succeeded. -/
theorem on_init_success_inv (N : Int) (env : InitEnv) (self : FanucHardwareInterface)
    (log : SocketLog) (info : HardwareInfo)
    (h : (on_init N env self log info).1 = CallbackReturn.SUCCESS) :
    env.base_on_init = CallbackReturn.SUCCESS ∧ size_to_int info.joints.length = N
      ∧ 0 ≤ env.socket_ret ∧ 0 < env.inet_pton_ret ∧ 0 ≤ env.connect_ret := by
  by_cases hbase : env.base_on_init = CallbackReturn.SUCCESS
  · by_cases hcount : size_to_int info.joints.length = N
    · by_cases h1 : env.socket_ret < 0
      · simp [on_init, sys_socket, hbase, hcount, h1] at h
      · by_cases h2 : env.inet_pton_ret ≤ 0
        · simp [on_init, sys_socket, hbase, hcount, h1, h2] at h
        · by_cases h3 : env.connect_ret < 0
          · simp [on_init, sys_socket, hbase, hcount, h1, h2, h3] at h
          · exact ⟨hbase, hcount, by omega, by omega, by omega⟩
    · simp [on_init, hbase, hcount] at h
  · simp [on_init, hbase] at h

/-- C12. For every hardware description whose joint count differs from
`number_of_joints_`, `on_init` fails: it returns ERROR (not SUCCESS), and it
returns before the call of `socket`: no socket has been created, the instance
is unchanged (`socket_created_` keeps its value, false before initialisation)
and the buffers have not been resized. The joint count is below `2^31`, so the
conversion `int(info_.joints.size())` is exact. -/
theorem C12_on_init_joint_count_mismatch (N : Int) (env : InitEnv)
    (self : FanucHardwareInterface) (log : SocketLog) (info : HardwareInfo)
    (hsize : info.joints.length < 2 ^ 31) (hne : (info.joints.length : Int) ≠ N) :
    (on_init N env self log info).1 = CallbackReturn.ERROR
      ∧ (on_init N env self log info).1 ≠ CallbackReturn.SUCCESS
      ∧ (on_init N env self log info).2.2 = log
      ∧ (on_init N env self log info).2.1 = self
      ∧ (self.socket_created_ = false →
          (on_init N env self log info).2.1.socket_created_ = false) := by
  have hc : size_to_int info.joints.length ≠ N := by
    rw [size_to_int_of_lt _ hsize]; exact hne
  by_cases hbase : env.base_on_init = CallbackReturn.SUCCESS
  · simp [on_init, hbase, hc]
  · simp [on_init, hbase]

/-- Witness of C12: a description with one joint where six are expected, in an
environment where every system call would succeed. -/
theorem C12_on_init_joint_count_mismatch_witness :
    (on_init 6 example_env fresh_instance ⟨[], []⟩ ⟨["joint_1"]⟩).1 = CallbackReturn.ERROR
      ∧ (on_init 6 example_env fresh_instance ⟨[], []⟩ ⟨["joint_1"]⟩).1 ≠ CallbackReturn.SUCCESS
      ∧ (on_init 6 example_env fresh_instance ⟨[], []⟩ ⟨["joint_1"]⟩).2.2 = ⟨[], []⟩
      ∧ (on_init 6 example_env fresh_instance ⟨[], []⟩ ⟨["joint_1"]⟩).2.1 = fresh_instance
      ∧ (fresh_instance.socket_created_ = false →
          (on_init 6 example_env fresh_instance ⟨[], []⟩ ⟨["joint_1"]⟩).2.1.socket_created_
            = false) :=
  C12_on_init_joint_count_mismatch 6 example_env fresh_instance ⟨[], []⟩ ⟨["joint_1"]⟩
    (by decide) (by decide)

/-- C13, the code at the failing input: `socket` returns descriptor 3 and
`connect` fails. `on_init` returns FAILURE with `socket_created_` still false,
so the destructor does not call `close`: descriptor 3 has been created and is
never closed. -/
theorem C13_socket_not_closed_after_failed_connect :
    on_init 6 refused_env fresh_instance ⟨[], []⟩ example_info
        = (CallbackReturn.FAILURE, ⟨3, false, [], []⟩, ⟨[3], []⟩)
      ∧ destructor (on_init 6 refused_env fresh_instance ⟨[], []⟩ example_info).2.1
          (on_init 6 refused_env fresh_instance ⟨[], []⟩ example_info).2.2
        = ⟨[3], []⟩
      ∧ (destructor (on_init 6 refused_env fresh_instance ⟨[], []⟩ example_info).2.1
          (on_init 6 refused_env fresh_instance ⟨[], []⟩ example_info).2.2).closed.count 3 = 0 := by
  decide

/-- C14. When `on_init` succeeds (the base class call succeeds, the joint count
matches, the socket is created, the address is parsed and the connection is
made) starting from empty buffers, it returns SUCCESS and the state buffer and
the command buffer both have exactly `joint_count` entries, every one the
quiet NaN. -/
theorem C14_on_init_buffers (N : Int) (env : InitEnv) (self : FanucHardwareInterface)
    (log : SocketLog) (info : HardwareInfo)
    (hbase : env.base_on_init = CallbackReturn.SUCCESS)
    (hcount : size_to_int info.joints.length = N)
    (hsock : 0 ≤ env.socket_ret) (haddr : 0 < env.inet_pton_ret) (hconn : 0 ≤ env.connect_ret)
    (hs : self.hw_states_ = []) (hc : self.hw_commands_ = []) :
    (on_init N env self log info).1 = CallbackReturn.SUCCESS
      ∧ (on_init N env self log info).2.1.hw_states_
          = List.replicate info.joints.length quiet_NaN
      ∧ (on_init N env self log info).2.1.hw_commands_
          = List.replicate info.joints.length quiet_NaN
      ∧ (on_init N env self log info).2.1.hw_states_.length = info.joints.length
      ∧ (on_init N env self log info).2.1.hw_commands_.length = info.joints.length
      ∧ (on_init N env self log info).2.1.socket_created_ = true := by
  rw [on_init_success N env self log info hbase hcount hsock haddr hconn, hs, hc]
  simp [vec_resize_nil]

/-- Witness of C14: six joints, every call succeeding. -/
theorem C14_on_init_buffers_witness :
    (on_init 6 example_env fresh_instance ⟨[], []⟩ example_info).1 = CallbackReturn.SUCCESS
      ∧ (on_init 6 example_env fresh_instance ⟨[], []⟩ example_info).2.1.hw_states_
          = List.replicate example_info.joints.length quiet_NaN
      ∧ (on_init 6 example_env fresh_instance ⟨[], []⟩ example_info).2.1.hw_commands_
          = List.replicate example_info.joints.length quiet_NaN
      ∧ (on_init 6 example_env fresh_instance ⟨[], []⟩ example_info).2.1.hw_states_.length
          = example_info.joints.length
      ∧ (on_init 6 example_env fresh_instance ⟨[], []⟩ example_info).2.1.hw_commands_.length
          = example_info.joints.length
      ∧ (on_init 6 example_env fresh_instance ⟨[], []⟩ example_info).2.1.socket_created_ = true :=
  C14_on_init_buffers 6 example_env fresh_instance ⟨[], []⟩ example_info
    (by decide) (by decide) (by decide) (by decide) (by decide) rfl rfl

/-- C15. The callback `write` is a no-op: for every state, time and period it
returns OK, leaves the instance (state buffer and command buffer) unchanged and
leaves the transport unchanged, so no byte is consumed. -/
theorem C15_write_is_noop (time period : Int) (self : FanucHardwareInterface) (t : Transport) :
    (FanucHardwareInterface.write time period self t).1 = return_type.OK
      ∧ (FanucHardwareInterface.write time period self t).2.1.hw_states_ = self.hw_states_
      ∧ (FanucHardwareInterface.write time period self t).2.1.hw_commands_ = self.hw_commands_
      ∧ (FanucHardwareInterface.write time period self t).2.1 = self
      ∧ (FanucHardwareInterface.write time period self t).2.2 = t :=
  ⟨rfl, rfl, rfl, rfl, rfl⟩

/-! ## Framing over a sequence of polls -/

theorem polls_succ (L : Nat) (uninit : Nat → Nat → Nat → Byte) (n k : Nat) (t t1 : Transport)
    (r : Bool × List CFloat)
    (h : read_joints L (uninit k) t = some (r, t1)) :
    polls L uninit (n + 1) k t
      = (polls L uninit n (k + 1) t1).map (fun p => (r :: p.1, p.2)) := by
  simp only [polls, h, Option.bind_eq_bind, Option.some_bind, Option.pure_def]
  cases polls L uninit n (k + 1) t1 <;> rfl

/-- Polling a stream made of well-formed frames, every read completing in full,
returns the reading of each frame in turn and exhausts the stream. -/
theorem polls_frames (L : Nat) (uninit : Nat → Nat → Nat → Byte) (hL : 44 ≤ L) :
    ∀ (frames : List Frame) (k : Nat) (t : Transport),
      frames.all (Frame.well_formed L) = true →
      t.incoming = (frames.map Frame.bytes).flatten →
      reads_in_full ((frames.map (Frame.requests L)).flatten) t = true →
      ∃ t', polls L uninit frames.length k t
          = some (frames.map (fun f => (true, f.reading)), t')
        ∧ t'.incoming = [] := by
  intro frames
  induction frames with
  | nil =>
    intro k t _ ht _
    exact ⟨t, rfl, by simpa using ht⟩
  | cons f fs ih =>
    intro k t hwf ht hf
    simp only [List.all_cons, Bool.and_eq_true] at hwf
    obtain ⟨hw, hws⟩ := hwf
    simp only [List.map_cons, List.flatten_cons] at ht hf
    cases f with
    | error b0 b1 b2 b3 body =>
      simp only [Frame.well_formed, Bool.and_eq_true, decide_eq_true_eq] at hw
      simp only [Frame.requests, List.cons_append, List.nil_append] at hf
      have hf' := hf
      rw [reads_in_full_cons, reads_in_full_cons] at hf'
      obtain ⟨hf1, hf2, hf3⟩ := hf'
      have hfa : reads_in_full [4, 40] t = true := by
        rw [reads_in_full_cons, reads_in_full_cons]; exact ⟨hf1, hf2, rfl⟩
      obtain ⟨h1, i1⟩ := read_joints_error_frame L (uninit k) t b0 b1 b2 b3 body _ hw.1 hw.2
        ht hfa
      obtain ⟨t', hp, hi⟩ := ih (k + 1) _ hws i1 hf3
      refine ⟨t', ?_, hi⟩
      rw [List.length_cons, polls_succ L uninit _ k t _ _ h1, hp]
      rfl
    | status payload =>
      simp only [Frame.well_formed, decide_eq_true_eq] at hw
      simp only [Frame.requests, List.cons_append, List.nil_append] at hf
      have hf' := hf
      rw [reads_in_full_cons, reads_in_full_cons] at hf'
      obtain ⟨hf1, hf2, hf3⟩ := hf'
      have hfa : reads_in_full [4, L] t = true := by
        rw [reads_in_full_cons, reads_in_full_cons]; exact ⟨hf1, hf2, rfl⟩
      obtain ⟨h1, i1⟩ := read_joints_status_frame L (uninit k) t payload _ hL hw ht hfa
      obtain ⟨t', hp, hi⟩ := ih (k + 1) _ hws i1 hf3
      refine ⟨t', ?_, hi⟩
      rw [List.length_cons, polls_succ L uninit _ k t _ _ h1, hp]
      rfl

/-- C16. Framing is preserved over any number of polls: for every finite list
of well-formed frames (error frames: length other than 56 and 40 payload bytes;
status frames: length 56 and `state_buffer_length_` payload bytes) concatenated
into one stream, every read completing in full, `n` consecutive calls of
`read_joints` (`n` the number of frames) all succeed, call `k` returning six
zeros when frame `k` is an error frame and the joints encoded in frame `k`
when it is a status frame, and the stream is exhausted after the `n` calls. -/
theorem C16_framing_preserved (L : Nat) (uninit : Nat → Nat → Nat → Byte)
    (frames : List Frame) (t : Transport) (hL : 44 ≤ L)
    (hwf : frames.all (Frame.well_formed L) = true)
    (ht : t.incoming = (frames.map Frame.bytes).flatten)
    (hf : reads_in_full ((frames.map (Frame.requests L)).flatten) t = true) :
    ∃ results t', polls L uninit frames.length 0 t = some (results, t')
      ∧ t'.incoming = []
      ∧ results.length = frames.length
      ∧ ∀ k, k < frames.length →
          ∃ f, frames[k]? = some f ∧ results[k]? = some (true, f.reading)
            ∧ (∀ b0 b1 b2 b3 body, f = Frame.error b0 b1 b2 b3 body →
                results[k]? = some (true, List.replicate 6 float_zero))
            ∧ (∀ payload, f = Frame.status payload →
                results[k]? = some (true, frame_joints payload)) := by
  obtain ⟨t', hp, hi⟩ := polls_frames L uninit hL frames 0 t hwf ht hf
  refine ⟨_, t', hp, hi, by simp, ?_⟩
  intro k hk
  refine ⟨frames[k], List.getElem?_eq_getElem hk, ?_, ?_, ?_⟩
  · simp [List.getElem?_map, List.getElem?_eq_getElem hk]
  · intro b0 b1 b2 b3 body hfr
    simp [List.getElem?_map, List.getElem?_eq_getElem hk, hfr, Frame.reading]
  · intro payload hfr
    simp [List.getElem?_map, List.getElem?_eq_getElem hk, hfr, Frame.reading]

set_option maxRecDepth 4000 in
/-- Witness of C16: an error frame, the example status frame and an error
frame whose declared length is negative. -/
theorem C16_framing_preserved_witness :
    ∃ results t', polls 56 (fun _ => example_uninit) example_frames.length 0
          ⟨(example_frames.map Frame.bytes).flatten, []⟩
        = some (results, t')
      ∧ t'.incoming = []
      ∧ results.length = example_frames.length
      ∧ ∀ k, k < example_frames.length →
          ∃ f, example_frames[k]? = some f ∧ results[k]? = some (true, f.reading)
            ∧ (∀ b0 b1 b2 b3 body, f = Frame.error b0 b1 b2 b3 body →
                results[k]? = some (true, List.replicate 6 float_zero))
            ∧ (∀ payload, f = Frame.status payload →
                results[k]? = some (true, frame_joints payload)) :=
  C16_framing_preserved 56 (fun _ => example_uninit) example_frames
    ⟨(example_frames.map Frame.bytes).flatten, []⟩ (by decide) (by decide) rfl (by decide)

/-! ## Bounds of the accesses -/

theorem decode_joint_some_bound (sb : List Byte) (s : Nat) (v : CFloat)
    (h : decode_joint sb s = some v) : s + 3 < sb.length := by
  simp only [decode_joint, Option.bind_eq_bind, Option.bind_eq_some, Option.pure_def] at h
  obtain ⟨a, ha, -⟩ := h
  exact (List.getElem?_eq_some.1 ha).1

theorem decode_joint_isSome_iff (sb : List Byte) (i : Nat) :
    (decode_joint sb (20 + 4 * i)).isSome = true ↔ ∀ k ∈ joint_window i, k < sb.length := by
  constructor
  · intro h
    obtain ⟨v, hv⟩ := Option.isSome_iff_exists.1 h
    have hb := decode_joint_some_bound sb _ v hv
    intro k hk
    simp only [joint_window, List.mem_cons, List.mem_singleton, List.not_mem_nil, or_false] at hk
    omega
  · intro h
    have h3 := h (20 + 4 * i + 3) (by simp [joint_window])
    rw [decode_joint_eq sb i h3]
    rfl

/-- When a loop runs to its end, every iteration has run without undefined
behaviour. -/
theorem for_loop_some_body {σ : Type} (body : Nat → σ → Option σ) :
    ∀ (k i : Nat) (s r : σ), for_loop body k i s = some r →
      ∀ j, i ≤ j → j < i + k → ∃ s1 s2, body j s1 = some s2 := by
  intro k
  induction k with
  | zero => intro i s r _ j h1 h2; omega
  | succ k ih =>
    intro i s r h j h1 h2
    simp only [for_loop, Option.bind_eq_some] at h
    obtain ⟨s', hs', hrest⟩ := h
    by_cases hj : j = i
    · subst hj; exact ⟨s, s', hs'⟩
    · exact ih (i + 1) s' r hrest j (by omega) (by omega)

theorem read_joints_loop_none (sb : List Byte) (h : sb.length < 44) :
    for_loop (read_joints_body sb) 6 0 [] = none := by
  cases hr : for_loop (read_joints_body sb) 6 0 [] with
  | none => rfl
  | some r =>
    exfalso
    obtain ⟨s1, s2, hb⟩ := for_loop_some_body _ 6 0 [] r hr 5 (by omega) (by omega)
    simp only [read_joints_body, Option.bind_eq_bind, Option.bind_eq_some, Option.pure_def] at hb
    obtain ⟨v, hv, -⟩ := hb
    have := decode_joint_some_bound sb _ v hv
    omega

/-- C17. Every payload index read while extracting the joints lies in 20..43.
An iteration of the joint loop is defined exactly when its four indices are
inside the status buffer; so on a status frame `read_joints` is defined when
`state_buffer_length_` is at least 44, and an access falls outside the buffer
(undefined behaviour) when `state_buffer_length_` is below 44. -/
theorem C17_joint_window_in_bounds (L : Nat) (uninit : Nat → Nat → Byte) (t : Transport)
    (rest : List Byte) (ht : t.incoming = [0, 0, 0, 56] ++ rest)
    (hf : reads_in_full [4] t = true) :
    (∀ i k, i < 6 → k ∈ joint_window i → 20 ≤ k ∧ k ≤ 43)
    ∧ (∀ (sb : List Byte) (i : Nat),
        (decode_joint sb (20 + 4 * i)).isSome = true ↔ ∀ k ∈ joint_window i, k < sb.length)
    ∧ (∀ sb : List Byte, 44 ≤ sb.length →
        ∃ joints, for_loop (read_joints_body sb) 6 0 [] = some joints)
    ∧ (∀ sb : List Byte, sb.length < 44 → for_loop (read_joints_body sb) 6 0 [] = none)
    ∧ (44 ≤ L → ∃ joints t', read_joints L uninit t = some ((true, joints), t'))
    ∧ (L < 44 → read_joints L uninit t = none) := by
  refine ⟨?_, decode_joint_isSome_iff, fun sb h => ⟨_, read_joints_loop sb h⟩,
    read_joints_loop_none, ?_, ?_⟩
  · intro i k hi hk
    simp only [joint_window, List.mem_cons, List.mem_singleton, List.not_mem_nil, or_false] at hk
    omega
  · intro hL
    obtain ⟨joints, t', h, -⟩ := read_joints_total L uninit t hL
    exact ⟨joints, t', h⟩
  · intro hL
    rw [reads_in_full_cons] at hf
    obtain ⟨h1, -⟩ := read_socket_in_full t (new_chars (uninit 0) 4) [0, 0, 0, 56] rest 4
      ht rfl (new_chars_length _ _) hf.1
    have hlen : (socket_read.read_socket (after_read t 4) (new_chars (uninit 1) L) L).2.1.length
        < 44 := by
      rw [read_socket_buf_length _ _ _ (by simp [new_chars_length]), new_chars_length]; exact hL
    have h4 : memcpy_int (56 : Byte) 0 0 0 = 56 := by decide
    simp [read_joints, h1, decode_length_four, h4, read_joints_loop_none _ hlen]

/-- Witness of C17: a status buffer of 40 bytes, for which the last joint window
falls outside the buffer. -/
theorem C17_joint_window_in_bounds_witness :
    (∀ i k, i < 6 → k ∈ joint_window i → 20 ≤ k ∧ k ≤ 43)
    ∧ (∀ (sb : List Byte) (i : Nat),
        (decode_joint sb (20 + 4 * i)).isSome = true ↔ ∀ k ∈ joint_window i, k < sb.length)
    ∧ (∀ sb : List Byte, 44 ≤ sb.length →
        ∃ joints, for_loop (read_joints_body sb) 6 0 [] = some joints)
    ∧ (∀ sb : List Byte, sb.length < 44 → for_loop (read_joints_body sb) 6 0 [] = none)
    ∧ (44 ≤ 40 → ∃ joints t', read_joints 40 example_uninit
          ⟨[0, 0, 0, 56] ++ example_payload, []⟩ = some ((true, joints), t'))
    ∧ (40 < 44 → read_joints 40 example_uninit ⟨[0, 0, 0, 56] ++ example_payload, []⟩ = none) :=
  C17_joint_window_in_bounds 40 example_uninit ⟨[0, 0, 0, 56] ++ example_payload, []⟩
    example_payload rfl (by decide)

/-- The code of C17 evaluated with a status buffer of 40 bytes: the poll is
undefined. With 44 bytes it is defined. -/
theorem example_short_status_buffer :
    read_joints 40 example_uninit ⟨[0, 0, 0, 56] ++ example_payload, []⟩ = none
      ∧ (read_joints 44 example_uninit ⟨[0, 0, 0, 56] ++ example_payload, []⟩).isSome = true := by
  decide

/-- C18. The call `read_joints` returns a vector of exactly 6 values on every
path (`state_buffer_length_` at least 44), so whenever the state buffer has at
most 6 entries every access `current_positions[i]` for `i < hw_states_.size()`
is within bounds: `read` is defined, and `on_configure` is defined as soon as
the command buffer is at least as long as the state buffer. -/
theorem C18_current_positions_in_bounds (L : Nat) (uninit : Nat → Nat → Byte)
    (self : FanucHardwareInterface) (t : Transport) (hL : 44 ≤ L)
    (hn : self.hw_states_.length ≤ 6) :
    ∃ joints t', read_joints L uninit t = some ((true, joints), t')
      ∧ joints.length = 6
      ∧ (∀ i, i < self.hw_states_.length → ∃ x, joints[i]? = some x)
      ∧ (∃ r, FanucHardwareInterface.read L uninit self t = some r)
      ∧ (self.hw_states_.length ≤ self.hw_commands_.length →
          ∃ r, on_configure L uninit self t = some r) := by
  obtain ⟨joints, t', hr, hlen⟩ := read_joints_total L uninit t hL
  refine ⟨joints, t', hr, hlen, ?_, ?_, ?_⟩
  · intro i hi
    exact ⟨joints[i], List.getElem?_eq_getElem (by omega)⟩
  · exact ⟨_, read_of_read_joints L uninit self t t' joints hr (by omega)⟩
  · intro hc
    exact ⟨_, on_configure_of_read_joints L uninit self t t' joints hr (by omega) hc⟩

/-- Witness of C18: the freshly initialised instance polling the example error
frame. -/
theorem C18_current_positions_in_bounds_witness :
    ∃ joints t', read_joints 56 example_uninit ⟨example_error_frame, []⟩
        = some ((true, joints), t')
      ∧ joints.length = 6
      ∧ (∀ i, i < example_state.hw_states_.length → ∃ x, joints[i]? = some x)
      ∧ (∃ r, FanucHardwareInterface.read 56 example_uninit example_state
          ⟨example_error_frame, []⟩ = some r)
      ∧ (example_state.hw_states_.length ≤ example_state.hw_commands_.length →
          ∃ r, on_configure 56 example_uninit example_state ⟨example_error_frame, []⟩
            = some r) :=
  C18_current_positions_in_bounds 56 example_uninit example_state ⟨example_error_frame, []⟩
    (by decide) (by decide)

/-! ## The sizes of the buffers -/

/-- A property kept by every iteration is kept by the loop. -/
theorem for_loop_invariant {σ : Type} (body : Nat → σ → Option σ) (P : σ → Prop)
    (hbody : ∀ i s s', body i s = some s' → P s → P s') :
    ∀ (k i : Nat) (s r : σ), for_loop body k i s = some r → P s → P r := by
  intro k
  induction k with
  | zero =>
    intro i s r h hp
    simp only [for_loop, Option.some.injEq] at h
    exact h ▸ hp
  | succ k ih =>
    intro i s r h hp
    simp only [for_loop, Option.bind_eq_some] at h
    obtain ⟨s', hs', hrest⟩ := h
    exact ih (i + 1) s' r hrest (hbody i s s' hs' hp)

theorem vec_set_length {α : Type} (v v' : List α) (i : Nat) (x : α)
    (h : vec_set v i x = some v') : v'.length = v.length := by
  simp only [vec_set] at h
  split at h
  · simp only [Option.some.injEq] at h
    rw [← h, List.length_set]
  · simp at h

theorem on_configure_body_sizes (cp : List CFloat) (i : Nat) (s s' : FanucHardwareInterface)
    (h : on_configure_body cp i s = some s') :
    s'.hw_states_.length = s.hw_states_.length
      ∧ s'.hw_commands_.length = s.hw_commands_.length := by
  simp only [on_configure_body, Option.bind_eq_bind, Option.bind_eq_some, Option.pure_def,
    Option.some.injEq] at h
  obtain ⟨x, -, st, hst, cmd, hcmd, rfl⟩ := h
  exact ⟨vec_set_length _ _ _ _ hst, vec_set_length _ _ _ _ hcmd⟩

theorem read_body_sizes (cp : List CFloat) (i : Nat) (s s' : FanucHardwareInterface)
    (h : read_body cp i s = some s') :
    s'.hw_states_.length = s.hw_states_.length
      ∧ s'.hw_commands_.length = s.hw_commands_.length := by
  simp only [read_body, Option.bind_eq_bind, Option.bind_eq_some, Option.pure_def,
    Option.some.injEq] at h
  obtain ⟨x, -, st, hst, rfl⟩ := h
  exact ⟨vec_set_length _ _ _ _ hst, rfl⟩

theorem on_activate_body_sizes (i : Nat) (s s' : FanucHardwareInterface)
    (h : on_activate_body i s = some s') :
    s'.hw_states_.length = s.hw_states_.length
      ∧ s'.hw_commands_.length = s.hw_commands_.length := by
  simp only [on_activate_body, Option.bind_eq_bind, Option.bind_eq_some, Option.pure_def,
    Option.some.injEq] at h
  obtain ⟨x, -, cmd, hcmd, rfl⟩ := h
  exact ⟨rfl, vec_set_length _ _ _ _ hcmd⟩

/-- No call made after `on_init` changes the size of a buffer. -/
theorem apply_sizes (L : Nat) (c : Call) (self s' : FanucHardwareInterface) (t t' : Transport)
    (n m : Nat) (h : c.apply L self t = some (s', t'))
    (hs : self.hw_states_.length = n ∧ self.hw_commands_.length = m) :
    s'.hw_states_.length = n ∧ s'.hw_commands_.length = m := by
  cases c with
  | on_configure uninit =>
    simp only [Call.apply, Option.map_eq_some', Prod.mk.injEq] at h
    obtain ⟨⟨ret, s1, t1⟩, hcall, rfl, rfl⟩ := h
    simp only [on_configure, Option.bind_eq_bind, Option.bind_eq_some, Option.pure_def] at hcall
    obtain ⟨⟨r, t2⟩, -, hcall⟩ := hcall
    split at hcall
    · simp only [Option.some.injEq, Prod.mk.injEq] at hcall
      obtain ⟨-, rfl, -⟩ := hcall
      exact hs
    · simp only [Option.bind_eq_some, Option.some.injEq, Prod.mk.injEq] at hcall
      obtain ⟨s2, hloop, -, rfl, -⟩ := hcall
      exact for_loop_invariant _
        (fun s => s.hw_states_.length = n ∧ s.hw_commands_.length = m)
        (fun i s s' hb hp => by
          obtain ⟨h1, h2⟩ := on_configure_body_sizes _ i s s' hb
          exact ⟨h1.trans hp.1, h2.trans hp.2⟩) _ _ _ _ hloop hs
  | on_activate =>
    simp only [Call.apply, Option.map_eq_some', Prod.mk.injEq] at h
    obtain ⟨⟨ret, s1⟩, hcall, rfl, rfl⟩ := h
    simp only [on_activate, Option.bind_eq_bind, Option.bind_eq_some, Option.pure_def,
      Option.some.injEq, Prod.mk.injEq] at hcall
    obtain ⟨s2, hloop, -, rfl⟩ := hcall
    exact for_loop_invariant _
      (fun s => s.hw_states_.length = n ∧ s.hw_commands_.length = m)
      (fun i s s' hb hp => by
        obtain ⟨h1, h2⟩ := on_activate_body_sizes i s s' hb
        exact ⟨h1.trans hp.1, h2.trans hp.2⟩) _ _ _ _ hloop hs
  | on_deactivate =>
    simp only [Call.apply, on_deactivate, Option.some.injEq, Prod.mk.injEq] at h
    obtain ⟨rfl, -⟩ := h
    exact hs
  | read uninit =>
    simp only [Call.apply, Option.map_eq_some', Prod.mk.injEq] at h
    obtain ⟨⟨ret, s1, t1⟩, hcall, rfl, rfl⟩ := h
    simp only [FanucHardwareInterface.read, Option.bind_eq_bind, Option.bind_eq_some,
      Option.pure_def] at hcall
    obtain ⟨⟨r, t2⟩, -, hcall⟩ := hcall
    split at hcall
    · simp only [Option.some.injEq, Prod.mk.injEq] at hcall
      obtain ⟨-, rfl, -⟩ := hcall
      exact hs
    · simp only [Option.bind_eq_some, Option.some.injEq, Prod.mk.injEq] at hcall
      obtain ⟨s2, hloop, -, rfl, -⟩ := hcall
      exact for_loop_invariant _
        (fun s => s.hw_states_.length = n ∧ s.hw_commands_.length = m)
        (fun i s s' hb hp => by
          obtain ⟨h1, h2⟩ := read_body_sizes _ i s s' hb
          exact ⟨h1.trans hp.1, h2.trans hp.2⟩) _ _ _ _ hloop hs
  | write time period =>
    simp only [Call.apply, FanucHardwareInterface.write, Option.some.injEq, Prod.mk.injEq] at h
    obtain ⟨rfl, -⟩ := h
    exact hs

theorem run_calls_sizes (L n m : Nat) :
    ∀ (calls : List Call) (self s' : FanucHardwareInterface) (t t' : Transport),
      run_calls L calls self t = some (s', t') →
      self.hw_states_.length = n ∧ self.hw_commands_.length = m →
      s'.hw_states_.length = n ∧ s'.hw_commands_.length = m := by
  intro calls
  induction calls with
  | nil =>
    intro self s' t t' h hs
    simp only [run_calls, Option.some.injEq, Prod.mk.injEq] at h
    obtain ⟨rfl, -⟩ := h
    exact hs
  | cons c cs ih =>
    intro self s' t t' h hs
    simp only [run_calls, Option.bind_eq_some] at h
    obtain ⟨⟨s1, t1⟩, hc, hrest⟩ := h
    exact ih s1 s' t1 t' hrest (apply_sizes L c self s1 t t1 n m hc hs)

/-- Every call is defined on an instance whose buffers have the same size, at
most 6. -/
theorem apply_defined (L : Nat) (c : Call) (self : FanucHardwareInterface) (t : Transport)
    (hL : 44 ≤ L) (hn : self.hw_states_.length ≤ 6)
    (hc : self.hw_states_.length = self.hw_commands_.length) :
    ∃ r, c.apply L self t = some r := by
  cases c with
  | on_configure uninit =>
    obtain ⟨joints, t', hr, hlen⟩ := read_joints_total L uninit t hL
    exact Option.isSome_iff_exists.1 (by
      simp only [Call.apply,
        on_configure_of_read_joints L uninit self t t' joints hr (by omega) (le_of_eq hc),
        Option.map_some', Option.isSome_some])
  | on_activate =>
    exact Option.isSome_iff_exists.1 (by
      simp only [Call.apply, on_activate_same_length self hc, Option.map_some',
        Option.isSome_some])
  | on_deactivate => exact ⟨_, rfl⟩
  | read uninit =>
    obtain ⟨joints, t', hr, hlen⟩ := read_joints_total L uninit t hL
    exact Option.isSome_iff_exists.1 (by
      simp only [Call.apply, read_of_read_joints L uninit self t t' joints hr (by omega),
        Option.map_some', Option.isSome_some])
  | write time period => exact ⟨_, rfl⟩

theorem run_calls_defined (L : Nat) (hL : 44 ≤ L) :
    ∀ (calls : List Call) (self : FanucHardwareInterface) (t : Transport),
      self.hw_states_.length ≤ 6 → self.hw_states_.length = self.hw_commands_.length →
      ∃ r, run_calls L calls self t = some r := by
  intro calls
  induction calls with
  | nil => intro self t _ _; exact ⟨_, rfl⟩
  | cons c cs ih =>
    intro self t hn hc
    obtain ⟨⟨s1, t1⟩, h1⟩ := apply_defined L c self t hL hn hc
    obtain ⟨hs, hm⟩ := apply_sizes L c self s1 t t1 _ _ h1 ⟨rfl, rfl⟩
    obtain ⟨r, hr⟩ := ih s1 t1 (by omega) (by omega)
    exact ⟨r, by simp only [run_calls, h1, Option.some_bind, hr]⟩

theorem export_state_loop (info_ : HardwareInfo) (self : FanucHardwareInterface)
    (h : info_.joints.length ≤ self.hw_states_.length) :
    ∀ (k i : Nat) (acc : List (String × String × Nat)), i + k = info_.joints.length →
      ∃ r, for_loop (export_state_body info_ self) k i acc = some r := by
  intro k
  induction k with
  | zero => intro i acc _; exact ⟨acc, rfl⟩
  | succ k ih =>
    intro i acc hik
    have h1 : i < info_.joints.length := by omega
    have h2 : i < self.hw_states_.length := by omega
    obtain ⟨r, hr⟩ := ih (i + 1) (acc ++ [(info_.joints[i], "position", i)]) (by omega)
    refine ⟨r, ?_⟩
    simp [for_loop, export_state_body, List.getElem?_eq_getElem h1,
      List.getElem?_eq_getElem h2, hr]

theorem export_command_loop (info_ : HardwareInfo) (self : FanucHardwareInterface)
    (h : info_.joints.length ≤ self.hw_commands_.length) :
    ∀ (k i : Nat) (acc : List (String × String × Nat)), i + k = info_.joints.length →
      ∃ r, for_loop (export_command_body info_ self) k i acc = some r := by
  intro k
  induction k with
  | zero => intro i acc _; exact ⟨acc, rfl⟩
  | succ k ih =>
    intro i acc hik
    have h1 : i < info_.joints.length := by omega
    have h2 : i < self.hw_commands_.length := by omega
    obtain ⟨r, hr⟩ := ih (i + 1) (acc ++ [(info_.joints[i], "position", i)]) (by omega)
    refine ⟨r, ?_⟩
    simp [for_loop, export_command_body, List.getElem?_eq_getElem h1,
      List.getElem?_eq_getElem h2, hr]

/-- C19. Buffer-size invariant. After a successful `on_init` the state buffer
and the command buffer have exactly `joint_count` entries, and in every state
reached from there by any sequence of `on_configure`, `on_activate`,
`on_deactivate`, `read` and `write` both buffers still have exactly
`joint_count` entries, so that every `hw_states_[i]` and `hw_commands_[i]`
taken by `export_state_interfaces` and `export_command_interfaces` exists.
With `joint_count` at most 6 and `state_buffer_length_` at least 44 every such
sequence of calls is defined. -/
theorem C19_buffer_sizes_invariant (N : Int) (L : Nat) (env : InitEnv)
    (self : FanucHardwareInterface) (log : SocketLog) (info : HardwareInfo)
    (hinit : (on_init N env self log info).1 = CallbackReturn.SUCCESS) :
    (on_init N env self log info).2.1.hw_states_.length = info.joints.length
    ∧ (on_init N env self log info).2.1.hw_commands_.length = info.joints.length
    ∧ (∀ (calls : List Call) (t t' : Transport) (s' : FanucHardwareInterface),
        run_calls L calls (on_init N env self log info).2.1 t = some (s', t') →
        s'.hw_states_.length = info.joints.length
          ∧ s'.hw_commands_.length = info.joints.length
          ∧ (∃ r, export_state_interfaces info s' = some r)
          ∧ (∃ r, export_command_interfaces info s' = some r))
    ∧ (44 ≤ L → info.joints.length ≤ 6 → ∀ (calls : List Call) (t : Transport),
        ∃ r, run_calls L calls (on_init N env self log info).2.1 t = some r) := by
  obtain ⟨hbase, hcount, hsock, haddr, hconn⟩ := on_init_success_inv N env self log info hinit
  have hs : (on_init N env self log info).2.1.hw_states_.length = info.joints.length := by
    rw [on_init_success N env self log info hbase hcount hsock haddr hconn]
    exact vec_resize_length _ _ _
  have hm : (on_init N env self log info).2.1.hw_commands_.length = info.joints.length := by
    rw [on_init_success N env self log info hbase hcount hsock haddr hconn]
    exact vec_resize_length _ _ _
  refine ⟨hs, hm, ?_, ?_⟩
  · intro calls t t' s' hrun
    obtain ⟨h1, h2⟩ := run_calls_sizes L _ _ calls _ s' t t' hrun ⟨hs, hm⟩
    exact ⟨h1, h2, export_state_loop info s' (le_of_eq h1.symm) _ 0 [] (by simp),
      export_command_loop info s' (le_of_eq h2.symm) _ 0 [] (by simp)⟩
  · intro hL hn calls t
    exact run_calls_defined L hL calls _ t (by omega) (by omega)

/-- Witness of C19: six joints, every call of `on_init` succeeding. -/
theorem C19_buffer_sizes_invariant_witness :
    (on_init 6 example_env fresh_instance ⟨[], []⟩ example_info).2.1.hw_states_.length
        = example_info.joints.length
    ∧ (on_init 6 example_env fresh_instance ⟨[], []⟩ example_info).2.1.hw_commands_.length
        = example_info.joints.length
    ∧ (∀ (calls : List Call) (t t' : Transport) (s' : FanucHardwareInterface),
        run_calls 56 calls (on_init 6 example_env fresh_instance ⟨[], []⟩ example_info).2.1 t
          = some (s', t') →
        s'.hw_states_.length = example_info.joints.length
          ∧ s'.hw_commands_.length = example_info.joints.length
          ∧ (∃ r, export_state_interfaces example_info s' = some r)
          ∧ (∃ r, export_command_interfaces example_info s' = some r))
    ∧ (44 ≤ 56 → example_info.joints.length ≤ 6 → ∀ (calls : List Call) (t : Transport),
        ∃ r, run_calls 56 calls
          (on_init 6 example_env fresh_instance ⟨[], []⟩ example_info).2.1 t = some r) :=
  C19_buffer_sizes_invariant 6 56 example_env fresh_instance ⟨[], []⟩ example_info (by decide)

set_option maxRecDepth 4000 in
/-- A run of C19 evaluated: configure on the example status frame, activate,
read an error frame, write, deactivate. -/
theorem example_run :
    run_calls 56
        [Call.on_configure example_uninit, Call.on_activate, Call.read example_uninit,
          Call.write 0 0, Call.on_deactivate]
        example_state ⟨[0, 0, 0, 56] ++ example_payload ++ example_error_frame, []⟩
      = some (⟨3, true, List.replicate 6 double_zero,
          [⟨0x4056A00000000000⟩, ⟨0⟩, ⟨0⟩, ⟨0⟩, ⟨0⟩, ⟨0⟩]⟩, ⟨[], []⟩) := by
  decide

end fanuc_hardware
